import Mathlib

/-!
Shallow embedding of the structure matcher and command generator of the
media-query repository (module `media_scrapy/conf.py`).

Modelling conventions:
* Bytes are `List Nat` (one Nat per byte value).
* User-supplied rules (functions given in a site configuration) are modelled
  as Lean functions; a rule returning Python `None` is modelled by `Option`
  returning `none`, which the `CallableComponent` call turns into a
  `MediaScrapyError` (constructor `Err.componentReturnedNone`), as in
  `CallableComponent.__call__`.
* An HTML selector (`parsel.Selector`) is modelled by the data the generator
  reads from it: the link elements found by the XPath `.//*[@href | @src]`,
  the result of `xpath(..).getall()` queries, and its serialized bytes.
* `re.Match` objects are modelled opaquely by their group list (`UMatch`).
* Exceptions (`MediaScrapyError`, `AssertionError`, failed Python `assert`
  statements) are modelled by the `Except Err` monad.
-/

namespace MediaScrapy

/-- Byte strings are lists of byte values. -/
abbrev Bytes := List Nat

/-- UTF-8 encoding of a single character (Python `str.encode("utf-8")`). -/
def utf8EncodeChar (c : Char) : Bytes :=
  let n := c.toNat
  if n < 0x80 then [n]
  else if n < 0x800 then
    [0xC0 ||| (n >>> 6), 0x80 ||| (n &&& 0x3F)]
  else if n < 0x10000 then
    [0xE0 ||| (n >>> 12), 0x80 ||| ((n >>> 6) &&& 0x3F), 0x80 ||| (n &&& 0x3F)]
  else
    [0xF0 ||| (n >>> 18), 0x80 ||| ((n >>> 12) &&& 0x3F),
     0x80 ||| ((n >>> 6) &&& 0x3F), 0x80 ||| (n &&& 0x3F)]

/-- UTF-8 encoding of a string (Python `str.encode("utf-8")`). -/
def utf8Encode (s : String) : Bytes :=
  s.data.flatMap utf8EncodeChar

/-- Lower-case hexadecimal digit, used by the JSON string escaper. -/
def hexDigit (n : Nat) : Char :=
  if n < 10 then Char.ofNat (48 + n) else Char.ofNat (87 + n)

/-- Four-digit hexadecimal rendering, as in a JSON `\uXXXX` escape. -/
def hex4 (n : Nat) : String :=
  String.mk [hexDigit (n / 4096 % 16), hexDigit (n / 256 % 16),
             hexDigit (n / 16 % 16), hexDigit (n % 16)]

/-- Escape of one character inside a JSON string literal, following
Python `json.dumps` defaults (`ensure_ascii=True`). -/
def jsonEscapeChar (c : Char) : String :=
  if c = '"' then "\\\""
  else if c = '\\' then "\\\\"
  else if c = '\n' then "\\n"
  else if c = '\r' then "\\r"
  else if c = '\t' then "\\t"
  else if c.toNat = 8 then "\\b"
  else if c.toNat = 12 then "\\f"
  else if c.toNat < 32 || 126 < c.toNat then
    if c.toNat < 0x10000 then "\\u" ++ hex4 c.toNat
    else
      let v := c.toNat - 0x10000
      "\\u" ++ hex4 (0xD800 + v / 0x400) ++ "\\u" ++ hex4 (0xDC00 + v % 0x400)
  else String.singleton c

/-- JSON rendering of a string literal (Python `json.dumps` on a `str`). -/
def jsonString (s : String) : String :=
  "\"" ++ String.join (s.data.map jsonEscapeChar) ++ "\""

/-- JSON rendering of a list of strings (Python `json.dumps` on a list of
`str`, default separators). -/
def json_dumps (xs : List String) : String :=
  "[" ++ String.intercalate ", " (xs.map jsonString) ++ "]"

/-- POSIX `os.path.join` on two components, as used by
`UrlInfo.join_file_path`. -/
def pathJoin (a b : String) : String :=
  if b.startsWith "/" then b
  else if a.isEmpty || a.endsWith "/" then a ++ b
  else a ++ "/" ++ b

/-- Helper for `dirname`: strip trailing slashes. -/
def rstripSlashes (cs : List Char) : List Char :=
  (cs.reverse.dropWhile (fun c => c = '/')).reverse

/-- POSIX `os.path.dirname`, as used by
`UrlInfo.drop_last_file_path_component`. -/
def dirname (p : String) : String :=
  let cs := p.toList
  match cs.reverse.findIdx? (fun c => c = '/') with
  | none => ""
  | some jrev =>
    let i := cs.length - 1 - jrev
    let head := cs.take (i + 1)
    if head.all (fun c => c = '/') then String.mk head
    else String.mk (rstripSlashes head)

/-- A link element of the response markup: its tag name and its `href` and
`src` attributes (the only attributes `get_links` reads). -/
structure LinkEl where
  name : String
  href : Option String
  src : Option String
deriving DecidableEq

/-- Opaque model of a `re.Match` object, identified by its captured groups. -/
structure UMatch where
  groups : List String
deriving DecidableEq

/-- Model of a `parsel.Selector`: the data the command generator reads
from it. `elems` are all descendant elements considered by the XPath
`.//*[@href | @src]` before the attribute filter; `xpathGetAll xp` models
`sel.xpath(xp).getall()`; `htmlBytes` models `etree.tostring(sel.root)`. -/
structure Sel where
  elems : List LinkEl
  xpathGetAll : String → List String
  htmlBytes : Bytes

/-- Model of a `scrapy` `Response`: its root selector and URL-join
behaviour (`res.urljoin`). -/
structure Response where
  selector : Sel
  urljoin : String → String

/-- `UrlInfo`: one URL occurrence with the state accumulated by the walk. -/
structure UrlInfo where
  url : String
  original_url : String
  link_el : LinkEl
  url_match : Option UMatch
  file_path : String
  structure_path : List Nat
deriving DecidableEq

/-- The link element synthesized by `UrlInfo.__init__` for a start URL:
an anchor whose `href` holds the URL itself. -/
def synthesized_link_el (url : String) : LinkEl :=
  { name := "a", href := some url, src := none }

/-- `UrlInfo(url)` with every optional argument left at its default. -/
def UrlInfo.mk_default (url : String) : UrlInfo :=
  { url := url
  , original_url := url
  , link_el := synthesized_link_el url
  , url_match := none
  , file_path := ""
  , structure_path := [] }

/-- `UrlInfo.join_file_path`. -/
def join_file_path (file_path file_path_component : String) : String :=
  if file_path.length = 0 then file_path_component
  else pathJoin file_path file_path_component

/-- `UrlInfo.add_file_path_component`. -/
def UrlInfo.add_file_path_component (ui : UrlInfo) (c : String) : UrlInfo :=
  { ui with file_path := join_file_path ui.file_path c }

/-- Error taxonomy of the generator, one constructor per raise site kind. -/
inductive Err where
  /-- `MediaScrapyError`: the start URL matches no root child matcher. -/
  | noMatcherForStartUrl
  /-- `MediaScrapyError`: a site-config component returned `None`. -/
  | componentReturnedNone
  /-- `AssertionError` raised by an assertion matcher. -/
  | assertionFailed
  /-- A failed Python `assert` statement. -/
  | internalAssert
  /-- `MediaScrapyError`: structure nodes appended after a branch point. -/
  | branchThenMerge
  /-- `MediaScrapyError`: `file_content` on a non-leaf node. -/
  | fileContentNotInLeaf
deriving DecidableEq

/-- `UrlInfo.drop_last_file_path_component`, with its two `assert`
statements modelled as `Err.internalAssert`. -/
def UrlInfo.drop_last_file_path_component (ui : UrlInfo) : Except Err UrlInfo :=
  if ui.file_path.length = 0 then .error .internalAssert
  else
    let dropped := dirname ui.file_path
    if dropped = ui.file_path then .error .internalAssert
    else .ok { ui with file_path := dropped }

/-- `ResponseUrlInfo`: a `UrlInfo` bound to a fetched response. -/
structure ResponseUrlInfo extends UrlInfo where
  res : Response
  content_node : List Sel

/-- `ResponseUrlInfo.next`: the `UrlInfo` for a link discovered on this
response; `structure_index = none` keeps the structure path unchanged,
`some i` descends into child `i`. -/
def ResponseUrlInfo.next (rui : ResponseUrlInfo) (url : String) (link_el : LinkEl)
    (url_match : Option UMatch) (structure_index : Option Nat) : UrlInfo :=
  { url := url
  , original_url := url
  , link_el := link_el
  , url_match := url_match
  , file_path := rui.file_path
  , structure_path :=
      match structure_index with
      | none => rui.structure_path
      | some i => rui.structure_path ++ [i] }

/-- `ResponseUrlInfo.forward`: descend into child `structure_index` without
consuming a link. -/
def ResponseUrlInfo.forward (rui : ResponseUrlInfo) (structure_index : Nat) : UrlInfo :=
  { url := rui.url
  , original_url := rui.original_url
  , link_el := rui.link_el
  , url_match := rui.url_match
  , file_path := rui.file_path
  , structure_path := rui.structure_path ++ [structure_index] }

/-- The keyword-argument context a `CallableComponent` is invoked with
(`vars(url_info)`); `res` and `content_node` are present exactly when the
invocation carries a `ResponseUrlInfo`. -/
structure Ctx where
  url : String
  original_url : String
  link_el : LinkEl
  url_match : Option UMatch
  file_path : String
  structure_path : List Nat
  res : Option Response
  content_node : Option (List Sel)

/-- Context of a plain `UrlInfo` invocation (no response available). -/
def UrlInfo.toCtx (ui : UrlInfo) : Ctx :=
  { url := ui.url, original_url := ui.original_url, link_el := ui.link_el
  , url_match := ui.url_match, file_path := ui.file_path
  , structure_path := ui.structure_path, res := none, content_node := none }

/-- Context of a `ResponseUrlInfo` invocation. -/
def ResponseUrlInfo.toCtx (rui : ResponseUrlInfo) : Ctx :=
  { url := rui.url, original_url := rui.original_url, link_el := rui.link_el
  , url_match := rui.url_match, file_path := rui.file_path
  , structure_path := rui.structure_path, res := some rui.res
  , content_node := some rui.content_node }

/-- Result of a URL matcher component: a boolean or a `re.Match`
(`Union[bool, re.Match]`). The wrappers built by `UrlMatcherSchema` never
return `None`, so no `Option` is involved. -/
inductive UMatchResult where
  | bool (b : Bool)
  | matched (m : UMatch)

/-- URL matcher component: invoked with the URL only
(`can_accept_response=False`). -/
structure UrlMatcherC where
  fn : String → UMatchResult

/-- URL converter component (`as_url`): invoked with a plain `UrlInfo`
context; returning `none` models a Python `None` result. -/
structure UrlConverterC where
  fn : UrlInfo → Option String

/-- Content-area extractor component (`content`): always invoked on a
response-bound context. -/
structure CNExtractorC where
  fn : ResponseUrlInfo → Option (List Sel)

/-- Value returned by a file-content extractor: `Union[str, bytes]`. -/
inductive FileContentValue where
  | str (s : String)
  | bytes (b : Bytes)

/-- File-content extractor component (`file_content`), with its
`needs_response` flag as computed by `CallableComponent.__init__`. -/
structure FileContentExtractorC where
  needs_response : Bool
  fn : Ctx → Option FileContentValue

/-- File-path extractor component (`file_path`), with its
`needs_response` flag as computed by `CallableComponent.__init__`. -/
structure FilePathExtractorC where
  needs_response : Bool
  fn : Ctx → Option String

/-- Assertion matcher component (`assert`): the wrappers built by
`AssertionMatcherSchema` raise `AssertionError` exactly when the check
fails, modelled by a boolean result. -/
structure AssertionC where
  fn : ResponseUrlInfo → Bool

/-- `StructureNode`: one node of the site-topology tree. -/
inductive StructureNode : Type where
  | mk (url_matcher : Option UrlMatcherC)
       (url_converter : Option UrlConverterC)
       (content_node_extractor : Option CNExtractorC)
       (file_content_extractor : Option FileContentExtractorC)
       (file_path_extractor : Option FilePathExtractorC)
       (assertion_matcher : Option AssertionC)
       (paging : Bool)
       (is_root : Bool)
       (children : List StructureNode) : StructureNode

/-- Accessor: URL matcher of the node. -/
def StructureNode.url_matcher : StructureNode → Option UrlMatcherC
  | .mk m _ _ _ _ _ _ _ _ => m

/-- Accessor: URL converter of the node. -/
def StructureNode.url_converter : StructureNode → Option UrlConverterC
  | .mk _ c _ _ _ _ _ _ _ => c

/-- Accessor: content-area extractor of the node. -/
def StructureNode.content_node_extractor : StructureNode → Option CNExtractorC
  | .mk _ _ e _ _ _ _ _ _ => e

/-- Accessor: file-content extractor of the node. -/
def StructureNode.file_content_extractor : StructureNode → Option FileContentExtractorC
  | .mk _ _ _ e _ _ _ _ _ => e

/-- Accessor: file-path extractor of the node. -/
def StructureNode.file_path_extractor : StructureNode → Option FilePathExtractorC
  | .mk _ _ _ _ e _ _ _ _ => e

/-- Accessor: assertion matcher of the node. -/
def StructureNode.assertion_matcher : StructureNode → Option AssertionC
  | .mk _ _ _ _ _ a _ _ _ => a

/-- Accessor: paging flag of the node. -/
def StructureNode.paging : StructureNode → Bool
  | .mk _ _ _ _ _ _ p _ _ => p

/-- Accessor: root flag of the node. -/
def StructureNode.is_root : StructureNode → Bool
  | .mk _ _ _ _ _ _ _ r _ => r

/-- Accessor: children of the node. -/
def StructureNode.children : StructureNode → List StructureNode
  | .mk _ _ _ _ _ _ _ _ cs => cs

/-- `StructureNode.needs_no_request`. -/
def StructureNode.needs_no_request (node : StructureNode) : Bool :=
  node.url_matcher.isNone

/-- `StructureNode.is_leaf`. -/
def StructureNode.is_leaf (node : StructureNode) : Bool :=
  node.children.isEmpty

/-- `StructureNode.has_file_path_component`. -/
def StructureNode.has_file_path_component (node : StructureNode) : Bool :=
  node.file_path_extractor.isSome

/-- `StructureNode.needs_response_for_file_path`. -/
def StructureNode.needs_response_for_file_path (node : StructureNode) : Bool :=
  match node.file_path_extractor with
  | none => false
  | some e => e.needs_response

/-- `StructureNode.can_get_file_path_before_request`. -/
def StructureNode.can_get_file_path_before_request (node : StructureNode) : Bool :=
  match node.file_path_extractor with
  | none => false
  | some e => !e.needs_response

/-- `StructureNode.needs_response_for_file_content`. -/
def StructureNode.needs_response_for_file_content (node : StructureNode) : Bool :=
  match node.file_content_extractor with
  | none => false
  | some e => e.needs_response

/-- `StructureNode.can_get_file_content_before_request`. -/
def StructureNode.can_get_file_content_before_request (node : StructureNode) : Bool :=
  match node.file_content_extractor with
  | none => false
  | some e => !e.needs_response

/-- `StructureNode.get_node_by_path`; an out-of-range child index (a failed
`assert`) yields `none`. -/
def StructureNode.get_node_by_path (node : StructureNode) : List Nat → Option StructureNode
  | [] => some node
  | i :: rest =>
    match node.children[i]? with
    | none => none
    | some child => child.get_node_by_path rest

/-- `StructureNode.match_url`: evaluate the URL matcher; no matcher means
no match. -/
def StructureNode.match_url (node : StructureNode) (url : String) :
    Bool × Option UMatch :=
  match node.url_matcher with
  | none => (false, none)
  | some m =>
    match m.fn url with
    | .bool b => (b, none)
    | .matched um => (true, some um)

/-- `StructureNode.convert_url`. -/
def StructureNode.convert_url (node : StructureNode) (ui : UrlInfo) :
    Except Err String :=
  match node.url_converter with
  | none => .ok ui.url
  | some c =>
    match c.fn ui with
    | none => .error .componentReturnedNone
    | some u => .ok u

/-- `StructureNode.update_url_info_before_request`: add the file-path
component when it is computable without a response, then convert the URL. -/
def StructureNode.update_url_info_before_request (node : StructureNode)
    (ui : UrlInfo) : Except Err UrlInfo := do
  let ui1 ←
    match node.file_path_extractor with
    | some e =>
      if e.needs_response then pure ui
      else
        match e.fn ui.toCtx with
        | none => throw Err.componentReturnedNone
        | some c => pure (ui.add_file_path_component c)
    | none => pure ui
  let new_url ← node.convert_url ui1
  pure { ui1 with url := new_url }

/-- `StructureNode.create_response_url_info`: bind a response, narrow the
content area through the content-node extractor, and add the file-path
component when it needed the response. -/
def StructureNode.create_response_url_info (node : StructureNode)
    (ui : UrlInfo) (res : Response) : Except Err ResponseUrlInfo := do
  let base : ResponseUrlInfo :=
    { toUrlInfo := ui, res := res, content_node := [res.selector] }
  let base ←
    match node.content_node_extractor with
    | none => pure base
    | some ce =>
      match ce.fn base with
      | none => throw Err.componentReturnedNone
      | some cn => pure { base with content_node := cn }
  match node.file_path_extractor with
  | some e =>
    if e.needs_response then
      match e.fn base.toCtx with
      | none => throw Err.componentReturnedNone
      | some c => pure { base with file_path := join_file_path base.file_path c }
    else pure base
  | none => pure base

/-- `StructureNode.assert_content`. -/
def StructureNode.assert_content (node : StructureNode)
    (rui : ResponseUrlInfo) : Except Err Unit :=
  match node.assertion_matcher with
  | none => .ok ()
  | some a => if a.fn rui then .ok () else .error .assertionFailed

/-- `get_html_content_bytes_for_selector_list`. -/
def get_html_content_bytes_for_selector_list (cn : List Sel) : Bytes :=
  (cn.map Sel.htmlBytes).flatten

/-- `StructureNode.extract_file_content_impl`: invoke the file-content
extractor and UTF-8 encode a textual result. -/
def StructureNode.extract_file_content_impl (node : StructureNode)
    (ctx : Ctx) : Except Err Bytes :=
  match node.file_content_extractor with
  | none => .error .internalAssert
  | some e =>
    match e.fn ctx with
    | none => .error .componentReturnedNone
    | some (.str s) => .ok (utf8Encode s)
    | some (.bytes b) => .ok b

/-- `StructureNode.extract_file_content`: extracted content when a rule is
present, serialized content area otherwise. -/
def StructureNode.extract_file_content (node : StructureNode)
    (rui : ResponseUrlInfo) : Except Err Bytes :=
  match node.file_content_extractor with
  | some _ => node.extract_file_content_impl rui.toCtx
  | none => .ok (get_html_content_bytes_for_selector_list rui.content_node)

/-- `StructureNode.extract_file_content_without_response`. -/
def StructureNode.extract_file_content_without_response (node : StructureNode)
    (ui : UrlInfo) : Except Err Bytes :=
  match node.file_content_extractor with
  | none => .error .internalAssert
  | some _ => node.extract_file_content_impl ui.toCtx

end MediaScrapy

namespace MediaScrapy

/-- The command variants returned to the crawling collaborator:
`RequestUrlCommand`, `DownloadUrlCommand`, `SaveFileContentCommand`. -/
inductive UrlCommand where
  | request (url : String) (url_info : UrlInfo)
  | download (url : String) (file_path : String)
  | save (url : String) (file_path : String) (file_content : Bytes)
deriving DecidableEq

/-- Elements of a selector matched by the XPath `.//*[@href | @src]`. -/
def Sel.xpath_href_src (s : Sel) : List LinkEl :=
  s.elems.filter (fun el => el.href.isSome || el.src.isSome)

/-- Link elements of a whole content region (a `SelectorList` query
concatenates the per-selector results). -/
def content_node_link_els (cn : List Sel) : List LinkEl :=
  (cn.map Sel.xpath_href_src).flatten

/-- The attribute `get_links` reads from one link element; `none` models
the unreachable `assert False` arm (the XPath already guarantees an
`href` or `src` attribute). -/
def link_url_attr (el : LinkEl) : Option String :=
  if ["a", "area", "link"].contains el.name && el.href.isSome then el.href
  else if ["img", "embed", "iframe", "img", "input", "script", "source",
           "track", "video"].contains el.name && el.src.isSome then el.src
  else if el.href.isSome then el.href
  else if el.src.isSome then el.src
  else none

/-- Loop of `get_links`: absolutize each candidate and keep the first
occurrence of every final URL (`seen_urls`). -/
def get_links_aux (urljoin : String → String) (seen : List String) :
    List LinkEl → List (LinkEl × String)
  | [] => []
  | el :: rest =>
    match link_url_attr el with
    | none => get_links_aux urljoin seen rest
    | some u0 =>
      let u := urljoin u0
      if seen.contains u then get_links_aux urljoin seen rest
      else (el, u) :: get_links_aux urljoin (u :: seen) rest

/-- `get_links`: candidate links of the bound content region, in document
order, deduplicated by final absolute URL. -/
def get_links (res : Response) (content_node : List Sel) :
    List (LinkEl × String) :=
  get_links_aux res.urljoin [] (content_node_link_els content_node)

/-- One iteration of the paging loop of `get_url_commands_impl`: test the
link against this same node's matcher and build the re-entering
`RequestUrlCommand`. -/
def paging_command_for_link (node : StructureNode) (url_info : ResponseUrlInfo)
    (link_el : LinkEl) (url : String) : Except Err (Option UrlCommand) :=
  let mr := node.match_url url
  if mr.1 then do
    let next0 := url_info.next url link_el mr.2 none
    let next1 ←
      if node.has_file_path_component then next0.drop_last_file_path_component
      else pure next0
    let next2 ← node.update_url_info_before_request next1
    pure (some (.request url_info.url next2))
  else pure none

/-- The paging loop of `get_url_commands_impl` over the discovered links,
in discovery order. -/
def paging_commands (node : StructureNode) (url_info : ResponseUrlInfo) :
    List (LinkEl × String) → Except Err (List UrlCommand)
  | [] => pure []
  | (el, u) :: rest => do
    let head ← paging_command_for_link node url_info el u
    let tail ← paging_commands node url_info rest
    match head with
    | none => pure tail
    | some c => pure (c :: tail)

/-- One iteration of the request-gated child loop of
`get_url_commands_impl`: test the link against the child's matcher and
classify the outcome into a save, download or request command. -/
def link_child_command (child : StructureNode) (url_info : ResponseUrlInfo)
    (structure_index : Nat) (link_el : LinkEl) (url : String) :
    Except Err (Option UrlCommand) :=
  let mr := child.match_url url
  if mr.1 then do
    let next0 := url_info.next url link_el mr.2 (some structure_index)
    let next ← child.update_url_info_before_request next0
    let needs_response_for_file :=
      child.needs_response_for_file_path || child.needs_response_for_file_content
    if child.is_leaf && !needs_response_for_file then
      if child.can_get_file_content_before_request then do
        let fc ← child.extract_file_content_without_response next
        pure (some (.save url_info.url next.file_path fc))
      else
        pure (some (.download next.url next.file_path))
    else
      pure (some (.request next.url next))
  else pure none

/-- The request-gated child loop of `get_url_commands_impl` over the
discovered links, in discovery order. -/
def link_child_commands (child : StructureNode) (url_info : ResponseUrlInfo)
    (structure_index : Nat) :
    List (LinkEl × String) → Except Err (List UrlCommand)
  | [] => pure []
  | (el, u) :: rest => do
    let head ← link_child_command child url_info structure_index el u
    let tail ← link_child_commands child url_info structure_index rest
    match head with
    | none => pure tail
    | some c => pure (c :: tail)

mutual

/-- `SiteConfig.get_url_commands_impl`: the core command generator, given a
node already bound to a response.

The recursive call in the pass-through branch models
`self.get_url_commands(url_info.res, next_url_info)`: the source resolves
the node through `root.get_node_by_path(next_url_info.structure_path)`,
which is the child itself (theorem `get_node_by_path_snoc` below), then
binds the response, runs the assertion and recurses. -/
def get_url_commands_impl (node : StructureNode) (url_info : ResponseUrlInfo) :
    Except Err (List UrlCommand) :=
  if node.is_leaf then do
    let fc ← node.extract_file_content url_info
    pure [.save url_info.url url_info.file_path fc]
  else
    let link_infos := get_links url_info.res url_info.content_node
    do
    let paging_cmds ←
      if node.paging then paging_commands node url_info link_infos
      else pure []
    let cf ← process_children node.is_root url_info link_infos 0 node.children
    if !cf.2 && node.is_root then throw Err.noMatcherForStartUrl
    else pure (paging_cmds ++ cf.1)
termination_by 2 * sizeOf node
decreasing_by
  have hlt : sizeOf node.children < sizeOf node := by
    cases node with
    | mk q1 q2 q3 q4 q5 q6 q7 q8 qs => simp [StructureNode.children]
  omega

/-- One iteration of the child loop of `get_url_commands_impl`: either the
pass-through/root branch (descend, re-binding the response) or the
request-gated branch (match every discovered link). The boolean of the
result is the contribution to `forwardable_structure_node_found`. -/
def process_child (parent_is_root : Bool) (url_info : ResponseUrlInfo)
    (link_infos : List (LinkEl × String)) (structure_index : Nat)
    (child : StructureNode) : Except Err (List UrlCommand × Bool) :=
  if child.needs_no_request || parent_is_root then
    let next0 := url_info.forward structure_index
    let gate : Option UrlInfo :=
      if parent_is_root then
        let mr := child.match_url next0.url
        if mr.1 then some { next0 with url_match := mr.2 } else none
      else some next0
    match gate with
    | none => pure ([], false)
    | some next1 => do
      let next2 ← child.update_url_info_before_request next1
      let rui ← child.create_response_url_info next2 url_info.res
      let _ ← child.assert_content rui
      let sub ← get_url_commands_impl child rui
      pure (sub, true)
  else do
    let cmds ← link_child_commands child url_info structure_index link_infos
    pure (cmds, false)
termination_by 2 * sizeOf child + 1
decreasing_by
  omega

/-- The child loop of `get_url_commands_impl`, with the running child index
and the `forwardable_structure_node_found` flag. -/
def process_children (parent_is_root : Bool) (url_info : ResponseUrlInfo)
    (link_infos : List (LinkEl × String)) (structure_index : Nat) :
    List StructureNode → Except Err (List UrlCommand × Bool)
  | [] => pure ([], false)
  | child :: rest => do
    let head ← process_child parent_is_root url_info link_infos
      structure_index child
    let tail ← process_children parent_is_root url_info link_infos
      (structure_index + 1) rest
    pure (head.1 ++ tail.1, head.2 || tail.2)
termination_by cs => 2 * sizeOf cs
decreasing_by
  all_goals (simp; try omega)

end

/-- `SiteConfig`: the validated configuration (start URL and parsed tree;
login handling and directory creation are I/O glue outside this model). -/
structure SiteConfig where
  start_url : String
  root_structure_node : StructureNode

/-- `SiteConfig.get_start_command`. -/
def SiteConfig.get_start_command (c : SiteConfig) : UrlCommand :=
  let url_info := UrlInfo.mk_default c.start_url
  .request url_info.url url_info

/-- `SiteConfig.get_url_commands`: resolve the node by structure path, bind
the response, run the assertion, then generate commands. -/
def SiteConfig.get_url_commands (c : SiteConfig) (res : Response)
    (req_url_info : UrlInfo) : Except Err (List UrlCommand) :=
  match c.root_structure_node.get_node_by_path req_url_info.structure_path with
  | none => .error .internalAssert
  | some node => do
    let rui ← node.create_response_url_info req_url_info res
    let _ ← node.assert_content rui
    get_url_commands_impl node rui

end MediaScrapy

namespace MediaScrapy

/-- Structure-definition syntax after per-field schema validation: the
string shorthand (validated by `UrlMatcherSchema` into a URL matcher), the
dict form with its recognized keys, and the list-of-lists branch form.
Field payloads are the already-compiled components; compiling the raw
regex / XPath / function payloads is the per-field schema concern. -/
inductive StructureDef : Type where
  | strDef (url_matcher : UrlMatcherC) : StructureDef
  | dictDef (url : Option UrlMatcherC)
            (as_url : Option UrlConverterC)
            (content : Option CNExtractorC)
            (file_content : Option FileContentExtractorC)
            (file_path : Option FilePathExtractorC)
            (assertion : Option AssertionC)
            (paging : Bool) : StructureDef
  | branches (bs : List (List StructureDef)) : StructureDef

mutual

/-- `StructureNode.check`: a non-leaf node must not carry a file-content
extractor. -/
def check_node (node : StructureNode) : Except Err Unit :=
  if !node.is_leaf && node.file_content_extractor.isSome then
    .error .fileContentNotInLeaf
  else check_children node.children
termination_by sizeOf node
decreasing_by
  have hlt : sizeOf node.children < sizeOf node := by
    cases node with
    | mk q1 q2 q3 q4 q5 q6 q7 q8 qs => simp [StructureNode.children]
  omega

/-- The recursion of `StructureNode.check` over a child list. -/
def check_children : List StructureNode → Except Err Unit
  | [] => .ok ()
  | c :: rest => do
    let _ ← check_node c
    check_children rest
termination_by cs => sizeOf cs
decreasing_by
  all_goals (simp; try omega)

end

mutual

/-- The loop of `parse_structure_list` over sibling definitions: each
string or dict definition becomes a node whose single child chain is the
rest of the list; a branch definition grafts every sub-tree's children and
must be last (`after_branch_node`). Returns the children to attach to the
current parent. -/
def parse_chain : List StructureDef → Except Err (List StructureNode)
  | [] => .ok []
  | .strDef m :: rest => do
    let cs ← parse_chain rest
    pure [.mk (some m) none none none none none false false cs]
  | .dictDef u a c fc fp asrt pg :: rest => do
    let cs ← parse_chain rest
    pure [.mk u a c fc fp asrt pg false cs]
  | .branches bs :: rest => do
    let cs ← parse_branches bs
    if rest.isEmpty then pure cs
    else .error .branchThenMerge
termination_by defs => 2 * sizeOf defs
decreasing_by
  all_goals (simp; try omega)

/-- Branch alternatives: each inner list is parsed independently through
`parse_structure_list` (with its own `check` pass) and its root's children
are grafted onto the current parent, in order. -/
def parse_branches : List (List StructureDef) → Except Err (List StructureNode)
  | [] => .ok []
  | defs :: more => do
    let sub_root ← parse_structure_list defs
    let others ← parse_branches more
    pure (sub_root.children ++ others)
termination_by bs => 2 * sizeOf bs
decreasing_by
  all_goals (simp; try omega)

/-- `parse_structure_list`: build the root node from a definition list and
run the `check` validation pass. -/
def parse_structure_list (defs : List StructureDef) :
    Except Err StructureNode := do
  let cs ← parse_chain defs
  let root : StructureNode := .mk none none none none none none false true cs
  let _ ← check_node root
  pure root
termination_by 2 * sizeOf defs + 1
decreasing_by
  all_goals (simp; try omega)

end

/-- `SelectorList.xpath(xp).getall()` over a content region: concatenation
of the per-selector results. -/
def selector_list_getall (cn : List Sel) (xp : String) : List String :=
  (cn.map (fun s => s.xpathGetAll xp)).flatten

/-- The file-content extractor `ContentExtractorSchema` compiles from an
XPath string: serialize all matched strings of the content node as a JSON
array (`json.dumps(content_node.xpath(xpath).getall())`). Its wrapped
function declares only `content_node`, so `needs_response` is true; the
`none` arm models the (unreachable) invocation without a response. -/
def xpath_content_extractor (xp : String) : FileContentExtractorC :=
  { needs_response := true
  , fn := fun ctx =>
      match ctx.content_node with
      | some cn => some (.str (json_dumps (selector_list_getall cn xp)))
      | none => none }

end MediaScrapy

namespace MediaScrapy

mutual

/-- Every node of this subtree, the node itself included, has `is_root`
unset; holds for all children subtrees of a parsed root. -/
def node_no_root (node : StructureNode) : Bool :=
  !node.is_root && forest_no_root node.children
termination_by sizeOf node
decreasing_by
  have hlt : sizeOf node.children < sizeOf node := by
    cases node with
    | mk q1 q2 q3 q4 q5 q6 q7 q8 qs => simp [StructureNode.children]
  omega

/-- Conjunction of `node_no_root` over a forest. -/
def forest_no_root : List StructureNode → Bool
  | [] => true
  | c :: rest => node_no_root c && forest_no_root rest
termination_by cs => sizeOf cs
decreasing_by
  all_goals (simp; try omega)

end

/-- Membership of a node in a subtree (reflexive-transitive closure of the
child relation). -/
inductive InTree : StructureNode → StructureNode → Prop where
  | refl (t : StructureNode) : InTree t t
  | step {m c t : StructureNode} (hc : c ∈ t.children) (hm : InTree m c) :
      InTree m t

/-- Every `DownloadUrlCommand` of the list appears strictly before every
`RequestUrlCommand`: the ordering asserted by the paging example of the
specification's testable properties. -/
def downloads_precede_requests (cmds : List UrlCommand) : Prop :=
  ∀ (i j : Nat) ud pd ur uir, cmds[i]? = some (UrlCommand.download ud pd) →
    cmds[j]? = some (UrlCommand.request ur uir) → i < j

/-- Concrete fixture: an anchor element linking to a content page. -/
def ex_link_a : LinkEl := { name := "a", href := some "/c/a", src := none }

/-- Concrete fixture: an anchor element linking to the next page. -/
def ex_link_next : LinkEl := { name := "a", href := some "/?page=2", src := none }

/-- Concrete fixture: a selector holding both anchors and two paragraph
texts. -/
def ex_sel : Sel :=
  { elems := [ex_link_a, ex_link_next]
  , xpathGetAll := fun _ => ["para one", "para two"]
  , htmlBytes := [60, 98, 62] }

/-- Concrete fixture: a response over `ex_sel` whose `urljoin` prefixes the
site host. -/
def ex_res : Response :=
  { selector := ex_sel, urljoin := fun u => "http://x" ++ u }

/-- Concrete fixture: matcher accepting the content link only. -/
def ex_matcher_content : UrlMatcherC :=
  { fn := fun u => .bool (u == "http://x/c/a") }

/-- Concrete fixture: matcher accepting the next-page link only. -/
def ex_matcher_page : UrlMatcherC :=
  { fn := fun u => .bool (u == "http://x/?page=2") }

/-- Concrete fixture: a leaf child matching the content link. -/
def ex_leaf_child : StructureNode :=
  .mk (some ex_matcher_content) none none none none none false false []

/-- Concrete fixture: a paging node whose matcher accepts its own next-page
link, with one leaf child. -/
def ex_paging_node : StructureNode :=
  .mk (some ex_matcher_page) none none none none none true false [ex_leaf_child]

/-- Concrete fixture: the `UrlInfo` of the page being processed. -/
def ex_url_info : UrlInfo := UrlInfo.mk_default "http://x/"

/-- Concrete fixture: the response-bound `UrlInfo` of the page. -/
def ex_rui : ResponseUrlInfo :=
  { toUrlInfo := ex_url_info, res := ex_res, content_node := [ex_sel] }

/-- Concrete fixture: the `UrlInfo` carried by the paging command (same
structure path, next-page URL). -/
def ex_paging_next_url_info : UrlInfo :=
  { url := "http://x/?page=2"
  , original_url := "http://x/?page=2"
  , link_el := ex_link_next
  , url_match := none
  , file_path := ""
  , structure_path := [] }

/-- Concrete fixture: the paging `RequestUrlCommand` produced for
`ex_paging_node`. -/
def ex_paging_request_cmd : UrlCommand :=
  .request "http://x/" ex_paging_next_url_info

/-- Concrete fixture: the `DownloadUrlCommand` produced for the leaf
child of `ex_paging_node`. -/
def ex_child_download_cmd : UrlCommand := .download "http://x/c/a" ""

/-- Concrete fixture: a leaf node carrying an XPath file-content rule. -/
def ex_c4_leaf : StructureNode :=
  .mk none none none (some (xpath_content_extractor "//p/text()")) none none
    false false []

/-- Concrete fixture: a response-bound `UrlInfo` with an accumulated file
path, used with `ex_c4_leaf`. -/
def ex_c4_rui : ResponseUrlInfo :=
  { url := "http://x/page"
  , original_url := "http://x/page"
  , link_el := synthesized_link_el "http://x/page"
  , url_match := none
  , file_path := "foo/bar.json"
  , structure_path := [0]
  , res := ex_res
  , content_node := [ex_sel] }

/-- Concrete fixture: a root whose only child matches only the content
link, so the current URL `http://x/` matches no root child. -/
def ex_root : StructureNode :=
  .mk none none none none none none false true
    [.mk (some ex_matcher_content) none none none none none false false []]

/-- Concrete fixture: a structure definition list whose first node carries
a file-content rule and still has a child. -/
def ex_c8_defs : List StructureDef :=
  [.dictDef none none none (some (xpath_content_extractor "//p/text()")) none
     none false,
   .strDef ex_matcher_content]

/-- Concrete fixture: the child node built from the string shorthand of
`ex_c8_defs`. -/
def ex_c8_child : StructureNode :=
  .mk (some ex_matcher_content) none none none none none false false []

/-- Concrete fixture: the non-leaf node with a file-content rule built
from `ex_c8_defs`. -/
def ex_c8_node : StructureNode :=
  .mk none none none (some (xpath_content_extractor "//p/text()")) none none
    false false [ex_c8_child]

end MediaScrapy

namespace MediaScrapy

/-- Reduction rule for `Except` bind on a success value. -/
@[simp] theorem except_bind_ok {α β ε : Type} (a : α) (f : α → Except ε β) :
    (Except.ok a >>= f) = f a := rfl

/-- Reduction rule for `Except` bind on an error value. -/
@[simp] theorem except_bind_error {α β ε : Type} (e : ε) (f : α → Except ε β) :
    ((Except.error e : Except ε α) >>= f) = .error e := rfl

/-- Pure in the `Except` monad is `Except.ok`. -/
@[simp] theorem except_pure {α ε : Type} (a : α) : (pure a : Except ε α) = .ok a := rfl

/-- Throw in the `Except` monad is `Except.error`. -/
@[simp] theorem except_throw {α ε : Type} (e : ε) : (throw e : Except ε α) = .error e := rfl


/-- The children of a node are smaller than the node itself (termination
measure for the tree walk). -/
theorem StructureNode.sizeOf_children_lt (node : StructureNode) :
    sizeOf node.children < sizeOf node := by
  cases node with
  | mk a b c d e f g h cs => simp [StructureNode.children]

/-- Looking a path up from the root and then taking one more index reaches
the corresponding child: this justifies inlining the recursive
`get_url_commands` call of the pass-through branch as a direct recursion
into the child. -/
theorem get_node_by_path_snoc (root : StructureNode) (p : List Nat) (i : Nat)
    (node : StructureNode) (h : root.get_node_by_path p = some node) :
    root.get_node_by_path (p ++ [i]) = node.children[i]? := by
  induction p generalizing root with
  | nil =>
    simp [StructureNode.get_node_by_path] at h
    subst h
    simp only [List.nil_append, StructureNode.get_node_by_path]
    cases hc : root.children[i]? <;> simp [hc, StructureNode.get_node_by_path]
  | cons j rest ih =>
    simp only [StructureNode.get_node_by_path, List.cons_append] at h ⊢
    cases hc : root.children[j]? with
    | none => simp [hc] at h
    | some c =>
      simp [hc] at h ⊢
      exact ih c h

/-- Updating a `UrlInfo` before a request never changes its structure
path. -/
theorem update_preserves_structure_path (node : StructureNode) (ui ui2 : UrlInfo)
    (h : node.update_url_info_before_request ui = .ok ui2) :
    ui2.structure_path = ui.structure_path := by
  unfold StructureNode.update_url_info_before_request at h
  cases hf : node.file_path_extractor with
  | none =>
    simp [hf] at h
    cases hcv : node.convert_url ui with
    | error e => simp [hcv] at h
    | ok u => simp [hcv] at h; subst h; rfl
  | some e =>
    simp [hf] at h
    by_cases hn : e.needs_response
    · simp [hn] at h
      cases hcv : node.convert_url ui with
      | error ee => simp [hcv] at h
      | ok u => simp [hcv] at h; subst h; rfl
    · simp [hn] at h
      cases hx : e.fn ui.toCtx with
      | none => simp [hx] at h
      | some c =>
        simp [hx] at h
        cases hcv : node.convert_url (ui.add_file_path_component c) with
        | error ee => simp [hcv] at h
        | ok u =>
          simp [hcv] at h
          subst h
          rfl

/-- With no URL converter, updating a `UrlInfo` before a request keeps its
URL unchanged. -/
theorem update_preserves_url_of_no_converter (node : StructureNode)
    (ui ui2 : UrlInfo) (hcv : node.url_converter = none)
    (h : node.update_url_info_before_request ui = .ok ui2) :
    ui2.url = ui.url := by
  unfold StructureNode.update_url_info_before_request at h
  have hconv : ∀ u : UrlInfo, node.convert_url u = .ok u.url := by
    intro u
    unfold StructureNode.convert_url
    simp [hcv]
  cases hf : node.file_path_extractor with
  | none =>
    simp [hf, hconv] at h
    subst h; rfl
  | some e =>
    simp [hf] at h
    by_cases hn : e.needs_response
    · simp [hn, hconv] at h
      subst h; rfl
    · simp [hn] at h
      cases hx : e.fn ui.toCtx with
      | none => simp [hx] at h
      | some c =>
        simp [hx, hconv] at h
        subst h; rfl

/-- Dropping the last file-path component never changes the structure path
or URL. -/
theorem drop_preserves_structure_path_and_url (ui ui2 : UrlInfo)
    (h : ui.drop_last_file_path_component = .ok ui2) :
    ui2.structure_path = ui.structure_path ∧ ui2.url = ui.url := by
  unfold UrlInfo.drop_last_file_path_component at h
  by_cases h0 : ui.file_path.length = 0
  · simp [h0] at h
  · simp [h0] at h
    by_cases h1 : dirname ui.file_path = ui.file_path
    · simp [h1] at h
    · simp [h1] at h
      subst h
      exact ⟨rfl, rfl⟩

/-- Claim C9: `get_start_command` always produces a `RequestUrlCommand`
whose URL is the configured start URL and whose `UrlInfo` has an empty
structure path, an empty accumulated file path, and the start URL itself. -/
theorem get_start_command_spec (c : SiteConfig) :
    ∃ ui, c.get_start_command = .request c.start_url ui ∧
      ui.structure_path = [] ∧ ui.file_path = "" ∧ ui.url = c.start_url := by
  refine ⟨UrlInfo.mk_default c.start_url, ?_, rfl, rfl, rfl⟩
  rfl

end MediaScrapy

namespace MediaScrapy

/-- Invariant of the `get_links` loop: the produced URLs are distinct and
disjoint from the already-seen set. -/
theorem get_links_aux_nodup (uj : String → String) :
    ∀ (els : List LinkEl) (seen : List String),
      (((get_links_aux uj seen els).map Prod.snd).Nodup) ∧
      (∀ u ∈ (get_links_aux uj seen els).map Prod.snd, u ∉ seen) := by
  intro els
  induction els with
  | nil => intro seen; simp [get_links_aux]
  | cons el rest ih =>
    intro seen
    cases h : link_url_attr el with
    | none => simpa [get_links_aux, h] using ih seen
    | some u0 =>
      simp only [get_links_aux, h]
      cases hc : seen.contains (uj u0) with
      | true =>
        simpa using ih seen
      | false =>
        simp only [Bool.false_eq_true, if_false, List.map_cons, List.nodup_cons]
        obtain ⟨h1, h2⟩ := ih (uj u0 :: seen)
        refine ⟨⟨?_, h1⟩, ?_⟩
        · intro hmem
          exact (h2 _ hmem) (List.mem_cons_self _ _)
        · intro u hu
          rcases List.mem_cons.mp hu with heq | hmem
          · subst heq
            intro habs
            simp only [List.contains] at hc
            rw [List.elem_eq_true_of_mem habs] at hc
            cases hc
          · intro habs
            exact (h2 u hmem) (List.mem_cons_of_mem _ habs)

/-- Claim C5: within one link-discovery call over a response's content
region, every final absolute URL appears at most once in the returned
link list, however many elements or attributes resolve to it. -/
theorem get_links_dedup (res : Response) (cn : List Sel) :
    ((get_links res cn).map Prod.snd).Nodup :=
  (get_links_aux_nodup res.urljoin (content_node_link_els cn) []).1

end MediaScrapy

namespace MediaScrapy

/-- Claim C2: a paging match produces a `RequestUrlCommand` whose
`url_info` keeps the current structure path (no descent), and when the
node contributes a file-path component the last component of the current
file path is dropped before the node's new component is applied. -/
theorem paging_command_same_structure_path (node : StructureNode)
    (ui : ResponseUrlInfo) (el : LinkEl) (u : String) (c : UrlCommand)
    (hpaging : node.paging = true)
    (h : paging_command_for_link node ui el u = .ok (some c)) :
    ∃ ui2, c = .request ui.url ui2 ∧ ui2.structure_path = ui.structure_path ∧
      (node.has_file_path_component = true →
        ∃ nd, (ui.next u el (node.match_url u).2 none).drop_last_file_path_component
                = .ok nd ∧
              node.update_url_info_before_request nd = .ok ui2) := by
  by_cases hm : (node.match_url u).1 = true
  · by_cases hfp : node.has_file_path_component = true
    · simp only [paging_command_for_link, hm, if_true, hfp] at h
      cases hd : (ui.next u el (node.match_url u).2 none).drop_last_file_path_component with
      | error e => simp [hd] at h
      | ok nd =>
        simp only [hd, except_bind_ok] at h
        cases hu : node.update_url_info_before_request nd with
        | error e => simp [hu] at h
        | ok ui2 =>
          simp only [hu, except_bind_ok, except_pure, Except.ok.injEq,
            Option.some.injEq] at h
          refine ⟨ui2, h.symm, ?_, fun _ => ⟨nd, rfl, hu⟩⟩
          rw [update_preserves_structure_path node nd ui2 hu,
            (drop_preserves_structure_path_and_url _ nd hd).1]
          rfl
    · simp only [paging_command_for_link, hm, if_true, hfp, Bool.false_eq_true,
        if_false] at h
      cases hu : node.update_url_info_before_request
          (ui.next u el (node.match_url u).2 none) with
      | error e => simp [hu] at h
      | ok ui2 =>
        simp only [hu, except_bind_ok, except_pure, Except.ok.injEq,
          Option.some.injEq] at h
        refine ⟨ui2, h.symm, ?_, fun hc => absurd hc hfp⟩
        rw [update_preserves_structure_path node _ ui2 hu]
        rfl
  · simp only [paging_command_for_link, hm, Bool.false_eq_true, if_false,
      except_pure, Except.ok.injEq] at h
    cases h

/-- Witness for claim C2 at the concrete paging fixture. -/
theorem paging_command_same_structure_path_witness :
    ex_paging_node.paging = true ∧
    paging_command_for_link ex_paging_node ex_rui ex_link_next
      "http://x/?page=2" = .ok (some ex_paging_request_cmd) ∧
    (∃ ui2, ex_paging_request_cmd = .request ex_rui.url ui2 ∧
      ui2.structure_path = ex_rui.structure_path ∧
      (ex_paging_node.has_file_path_component = true →
        ∃ nd, (ex_rui.next "http://x/?page=2" ex_link_next
                 (ex_paging_node.match_url "http://x/?page=2").2
                 none).drop_last_file_path_component = .ok nd ∧
              ex_paging_node.update_url_info_before_request nd = .ok ui2)) :=
  ⟨rfl, rfl,
   paging_command_same_structure_path ex_paging_node ex_rui ex_link_next
     "http://x/?page=2" ex_paging_request_cmd rfl rfl⟩

/-- Claim C3: a request-gated child matched against a candidate link
yields a `SaveFileContentCommand` exactly when the child is a leaf whose
file path and content need no response and a content extractor exists, a
`DownloadUrlCommand` when such a leaf has no content extractor, and a
`RequestUrlCommand` in every other case. -/
theorem link_child_command_classification (child : StructureNode)
    (ui : ResponseUrlInfo) (k : Nat) (el : LinkEl) (u : String) (c : UrlCommand)
    (h : link_child_command child ui k el u = .ok (some c)) :
    ((child.is_leaf = true ∧ child.needs_response_for_file_path = false ∧
        child.needs_response_for_file_content = false) →
      (child.file_content_extractor.isSome = true →
        ∃ url p b, c = .save url p b) ∧
      (child.file_content_extractor = none →
        ∃ url p, c = .download url p)) ∧
    ((child.is_leaf = false ∨ child.needs_response_for_file_path = true ∨
        child.needs_response_for_file_content = true) →
      ∃ url ui2, c = .request url ui2 ∧ url = ui2.url) := by
  by_cases hm : (child.match_url u).1 = true
  · simp only [link_child_command, hm, if_true] at h
    cases hu : child.update_url_info_before_request
        (ui.next u el (child.match_url u).2 (some k)) with
    | error e => simp [hu] at h
    | ok next =>
      simp only [hu, except_bind_ok] at h
      by_cases hleaf : child.is_leaf = true
      · by_cases hfp : child.needs_response_for_file_path = true
        · simp [hleaf, hfp] at h
          refine ⟨fun hc => absurd hfp (by simp [hc.2.1]),
            fun _ => ⟨next.url, next, h.symm, rfl⟩⟩
        · by_cases hfc : child.needs_response_for_file_content = true
          · simp [hleaf, hfc] at h
            refine ⟨fun hc => absurd hfc (by simp [hc.2.2]),
              fun _ => ⟨next.url, next, h.symm, rfl⟩⟩
          · have hfp2 : child.needs_response_for_file_path = false := by
              cases hx : child.needs_response_for_file_path
              · rfl
              · exact absurd hx hfp
            have hfc2 : child.needs_response_for_file_content = false := by
              cases hx : child.needs_response_for_file_content
              · rfl
              · exact absurd hx hfc
            simp only [hleaf, hfp2, hfc2, Bool.or_self, Bool.not_false,
              Bool.and_true, if_true] at h
            constructor
            · intro _
              constructor
              · intro hsome
                have hcg : child.can_get_file_content_before_request = true := by
                  unfold StructureNode.can_get_file_content_before_request
                  unfold StructureNode.needs_response_for_file_content at hfc2
                  cases hx : child.file_content_extractor with
                  | none => rw [hx] at hsome; cases hsome
                  | some e =>
                    rw [hx] at hfc2
                    simp at hfc2
                    simp [hfc2]
                simp only [hcg, if_true] at h
                cases hex : child.extract_file_content_without_response next with
                | error e => simp [hex] at h
                | ok fc =>
                  simp only [hex, except_bind_ok, except_pure, Except.ok.injEq,
                    Option.some.injEq] at h
                  exact ⟨ui.url, next.file_path, fc, h.symm⟩
              · intro hnone
                have hcg : child.can_get_file_content_before_request = false := by
                  unfold StructureNode.can_get_file_content_before_request
                  simp [hnone]
                simp only [hcg, Bool.false_eq_true, if_false, except_pure,
                  Except.ok.injEq, Option.some.injEq] at h
                exact ⟨next.url, next.file_path, h.symm⟩
            · intro hc
              rcases hc with hc | hc | hc
              · exact absurd hleaf (by simp [hc])
              · exact absurd hc (by simp [hfp2])
              · exact absurd hc (by simp [hfc2])
      · have hleaf2 : child.is_leaf = false := by
          cases hx : child.is_leaf
          · rfl
          · exact absurd hx hleaf
        simp only [hleaf2, Bool.false_and, Bool.false_eq_true, if_false,
          except_pure, Except.ok.injEq, Option.some.injEq] at h
        refine ⟨fun hc => absurd hc.1 hleaf, fun _ => ⟨next.url, next, h.symm, rfl⟩⟩
  · simp only [link_child_command, hm, Bool.false_eq_true, if_false,
      except_pure, Except.ok.injEq] at h
    cases h

/-- Witness for claim C3 at the concrete leaf-child fixture: a leaf with
no content extractor and no response-dependent extractor downloads. -/
theorem link_child_command_classification_witness :
    link_child_command ex_leaf_child ex_rui 0 ex_link_a "http://x/c/a"
      = .ok (some ex_child_download_cmd) ∧
    (((ex_leaf_child.is_leaf = true ∧
        ex_leaf_child.needs_response_for_file_path = false ∧
        ex_leaf_child.needs_response_for_file_content = false) →
      (ex_leaf_child.file_content_extractor.isSome = true →
        ∃ url p b, ex_child_download_cmd = .save url p b) ∧
      (ex_leaf_child.file_content_extractor = none →
        ∃ url p, ex_child_download_cmd = .download url p)) ∧
    ((ex_leaf_child.is_leaf = false ∨
        ex_leaf_child.needs_response_for_file_path = true ∨
        ex_leaf_child.needs_response_for_file_content = true) →
      ∃ url ui2, ex_child_download_cmd = .request url ui2 ∧ url = ui2.url)) :=
  ⟨rfl, link_child_command_classification ex_leaf_child ex_rui 0 ex_link_a
    "http://x/c/a" ex_child_download_cmd rfl⟩

/-- Claim C10: a paging `RequestUrlCommand` carries the URL of the page
currently being processed in its `url` field while the (possibly
converted) next-page URL travels in `url_info.url`; a request-gated child
`RequestUrlCommand` instead sets `url` equal to `url_info.url`. -/
theorem request_command_url_fields :
    (∀ (node : StructureNode) (ui : ResponseUrlInfo) (el : LinkEl) (u : String)
        (c : UrlCommand), paging_command_for_link node ui el u = .ok (some c) →
      ∃ ui2, c = .request ui.url ui2 ∧ (node.url_converter = none → ui2.url = u)) ∧
    (∀ (child : StructureNode) (ui : ResponseUrlInfo) (k : Nat) (el : LinkEl)
        (u url2 : String) (ui2 : UrlInfo),
      link_child_command child ui k el u = .ok (some (.request url2 ui2)) →
      url2 = ui2.url) := by
  constructor
  · intro node ui el u c h
    by_cases hm : (node.match_url u).1 = true
    · by_cases hfp : node.has_file_path_component = true
      · simp only [paging_command_for_link, hm, if_true, hfp] at h
        cases hd : (ui.next u el (node.match_url u).2 none).drop_last_file_path_component with
        | error e => simp [hd] at h
        | ok nd =>
          simp only [hd, except_bind_ok] at h
          cases hu : node.update_url_info_before_request nd with
          | error e => simp [hu] at h
          | ok ui2 =>
            simp only [hu, except_bind_ok, except_pure, Except.ok.injEq,
              Option.some.injEq] at h
            refine ⟨ui2, h.symm, fun hcv => ?_⟩
            rw [update_preserves_url_of_no_converter node nd ui2 hcv hu,
              (drop_preserves_structure_path_and_url _ nd hd).2]
            rfl
      · simp only [paging_command_for_link, hm, if_true, hfp, Bool.false_eq_true,
          if_false] at h
        cases hu : node.update_url_info_before_request
            (ui.next u el (node.match_url u).2 none) with
        | error e => simp [hu] at h
        | ok ui2 =>
          simp only [hu, except_bind_ok, except_pure, Except.ok.injEq,
            Option.some.injEq] at h
          refine ⟨ui2, h.symm, fun hcv => ?_⟩
          rw [update_preserves_url_of_no_converter node _ ui2 hcv hu]
          rfl
    · simp [paging_command_for_link, hm] at h
  · intro child ui k el u url2 ui2 h
    by_cases hm : (child.match_url u).1 = true
    · simp only [link_child_command, hm, if_true] at h
      cases hu : child.update_url_info_before_request
          (ui.next u el (child.match_url u).2 (some k)) with
      | error e => simp [hu] at h
      | ok next =>
        simp only [hu, except_bind_ok] at h
        by_cases hb : (child.is_leaf && !(child.needs_response_for_file_path ||
            child.needs_response_for_file_content)) = true
        · simp only [hb, if_true] at h
          by_cases hcg : child.can_get_file_content_before_request = true
          · simp only [hcg, if_true] at h
            cases hex : child.extract_file_content_without_response next with
            | error e => simp [hex] at h
            | ok fc => simp [hex] at h
          · simp [hcg] at h
        · simp only [hb, Bool.false_eq_true, if_false, except_pure,
            Except.ok.injEq, Option.some.injEq] at h
          obtain ⟨h1, h2⟩ := UrlCommand.request.inj h
          rw [← h1, ← h2]
    · simp [link_child_command, hm] at h

/-- Witness for claim C10 at the concrete paging fixture: the command's
`url` is the current page and its `url_info.url` the next-page link. -/
theorem request_command_url_fields_witness :
    paging_command_for_link ex_paging_node ex_rui ex_link_next
      "http://x/?page=2" = .ok (some ex_paging_request_cmd) ∧
    (∃ ui2, ex_paging_request_cmd = .request ex_rui.url ui2 ∧
      (ex_paging_node.url_converter = none → ui2.url = "http://x/?page=2")) :=
  ⟨rfl, request_command_url_fields.1 ex_paging_node ex_rui ex_link_next
    "http://x/?page=2" ex_paging_request_cmd rfl⟩

end MediaScrapy

namespace MediaScrapy

/-- Claim C4: a leaf node bound to a response yields exactly one
`SaveFileContentCommand` carrying the accumulated file path, and when the
leaf's file-content rule is an XPath string the saved bytes are the UTF-8
encoding of the JSON array of all strings matched in the content node. -/
theorem leaf_save_file_content :
    (∀ (node : StructureNode) (ui : ResponseUrlInfo) (cmds : List UrlCommand),
      node.is_leaf = true → get_url_commands_impl node ui = .ok cmds →
      ∃ b, cmds = [.save ui.url ui.file_path b]) ∧
    (∀ (node : StructureNode) (ui : ResponseUrlInfo) (xp : String),
      node.is_leaf = true →
      node.file_content_extractor = some (xpath_content_extractor xp) →
      get_url_commands_impl node ui =
        .ok [.save ui.url ui.file_path
          (utf8Encode (json_dumps (selector_list_getall ui.content_node xp)))]) := by
  constructor
  · intro node ui cmds hleaf h
    rw [get_url_commands_impl] at h
    simp only [hleaf, if_true] at h
    cases hex : node.extract_file_content ui with
    | error e => simp [hex] at h
    | ok b =>
      simp only [hex, except_bind_ok, except_pure, Except.ok.injEq] at h
      exact ⟨b, h.symm⟩
  · intro node ui xp hleaf hx
    rw [get_url_commands_impl]
    simp only [hleaf, if_true]
    have hex : node.extract_file_content ui =
        .ok (utf8Encode (json_dumps (selector_list_getall ui.content_node xp))) := by
      unfold StructureNode.extract_file_content
      rw [hx]
      unfold StructureNode.extract_file_content_impl
      rw [hx]
      unfold xpath_content_extractor
      simp [ResponseUrlInfo.toCtx]
    rw [hex]
    rfl

/-- Witness for claim C4 at the concrete leaf fixture carrying the XPath
file-content rule of the specification's example. -/
theorem leaf_save_file_content_witness :
    ex_c4_leaf.is_leaf = true ∧
    ex_c4_leaf.file_content_extractor
      = some (xpath_content_extractor "//p/text()") ∧
    get_url_commands_impl ex_c4_leaf ex_c4_rui =
      .ok [.save ex_c4_rui.url ex_c4_rui.file_path
        (utf8Encode (json_dumps
          (selector_list_getall ex_c4_rui.content_node "//p/text()")))] :=
  ⟨rfl, rfl,
   leaf_save_file_content.2 ex_c4_leaf ex_c4_rui "//p/text()" rfl rfl⟩

end MediaScrapy

namespace MediaScrapy

/-- Inversion of a successful `Except` bind. -/
theorem except_bind_eq_ok {α β : Type} {x : Except Err α} {f : α → Except Err β}
    {b : β} (h : (x >>= f) = .ok b) : ∃ a, x = .ok a ∧ f a = .ok b := by
  cases x with
  | error e => simp at h
  | ok a => exact ⟨a, rfl, h⟩

/-- A successful non-leaf run of the generator splits into the paging
commands followed by the child-loop commands. -/
theorem impl_nonleaf_decomp (node : StructureNode) (ui : ResponseUrlInfo)
    (cmds : List UrlCommand) (hleaf : node.is_leaf = false)
    (h : get_url_commands_impl node ui = .ok cmds) :
    ∃ pcmds ccmds found,
      (node.paging = true →
        paging_commands node ui (get_links ui.res ui.content_node) = .ok pcmds) ∧
      (node.paging = false → pcmds = []) ∧
      process_children node.is_root ui (get_links ui.res ui.content_node) 0
        node.children = .ok (ccmds, found) ∧
      cmds = pcmds ++ ccmds := by
  rw [get_url_commands_impl] at h
  simp only [hleaf, Bool.false_eq_true, if_false] at h
  by_cases hpg : node.paging = true
  · simp only [hpg, if_true] at h
    obtain ⟨pcmds, hp, h2⟩ := except_bind_eq_ok h
    obtain ⟨cf, hproc, h3⟩ := except_bind_eq_ok h2
    obtain ⟨ccmds, found⟩ := cf
    refine ⟨pcmds, ccmds, found, fun _ => hp, fun hc => absurd hpg (by simp [hc]),
      hproc, ?_⟩
    by_cases hcond : (!found && node.is_root) = true
    · simp [hcond] at h3
    · simp only [hcond, Bool.false_eq_true, if_false, except_pure,
        Except.ok.injEq] at h3
      exact h3.symm
  · simp only [hpg, Bool.false_eq_true, if_false, except_pure,
      except_bind_ok] at h
    obtain ⟨cf, hproc, h3⟩ := except_bind_eq_ok h
    obtain ⟨ccmds, found⟩ := cf
    refine ⟨[], ccmds, found, fun hc => absurd hc hpg, fun _ => rfl, hproc, ?_⟩
    by_cases hcond : (!found && node.is_root) = true
    · simp [hcond] at h3
    · simp only [hcond, Bool.false_eq_true, if_false, except_pure,
        Except.ok.injEq] at h3
      simpa using h3.symm

/-- A successful child loop produces one command list per child, in
declaration order; request-gated children contribute through
`link_child_commands` at their own index. -/
theorem process_children_spec (pr : Bool) (ui : ResponseUrlInfo)
    (links : List (LinkEl × String)) :
    ∀ (cs : List StructureNode) (i : Nat) (cmds : List UrlCommand) (found : Bool),
      process_children pr ui links i cs = .ok (cmds, found) →
      ∃ css : List (List UrlCommand),
        css.length = cs.length ∧ cmds = css.flatten ∧
        (∀ k child, cs[k]? = some child →
          child.needs_no_request = false → pr = false →
          ∃ l, css[k]? = some l ∧
            link_child_commands child ui (i + k) links = .ok l) := by
  intro cs
  induction cs with
  | nil =>
    intro i cmds found h
    rw [process_children] at h
    simp only [except_pure, Except.ok.injEq, Prod.mk.injEq] at h
    refine ⟨[], rfl, by simp [h.1.symm], ?_⟩
    intro k child hk
    simp at hk
  | cons child rest ih =>
    intro i cmds found h
    rw [process_children] at h
    obtain ⟨head, hh, h2⟩ := except_bind_eq_ok h
    obtain ⟨hc0, hf0⟩ := head
    obtain ⟨tail, ht, h3⟩ := except_bind_eq_ok h2
    obtain ⟨tc, tf⟩ := tail
    simp only [except_pure, Except.ok.injEq, Prod.mk.injEq] at h3
    obtain ⟨hcmds, hfound⟩ := h3
    obtain ⟨css, hlen, hflat, hper⟩ := ih (i + 1) tc tf ht
    refine ⟨hc0 :: css, by simp [hlen], by simp [hcmds.symm, hflat], ?_⟩
    intro k c hk hnnr hpr
    cases k with
    | zero =>
      simp only [List.getElem?_cons_zero, Option.some.injEq] at hk
      subst hk
      rw [process_child] at hh
      simp only [hnnr, hpr, Bool.or_self, Bool.false_eq_true, if_false] at hh
      obtain ⟨lc, hlc, hpure⟩ := except_bind_eq_ok hh
      simp only [except_pure, Except.ok.injEq, Prod.mk.injEq] at hpure
      refine ⟨hc0, by simp, ?_⟩
      rw [Nat.add_zero, ← hpure.1]
      exact hlc
    | succ k2 =>
      simp only [List.getElem?_cons_succ] at hk
      obtain ⟨l, hl, hlcc⟩ := hper k2 c hk hnnr hpr
      refine ⟨l, by simpa using hl, ?_⟩
      have hidx : i + (k2 + 1) = (i + 1) + k2 := by omega
      rw [hidx]
      exact hlcc

/-- A successful paging loop is the in-order selection of the per-link
paging commands. -/
theorem paging_commands_eq_filterMap (node : StructureNode)
    (ui : ResponseUrlInfo) :
    ∀ (links : List (LinkEl × String)) (l : List UrlCommand),
      paging_commands node ui links = .ok l →
      l = links.filterMap (fun li =>
            match paging_command_for_link node ui li.1 li.2 with
            | .ok (some c) => some c
            | _ => none) := by
  intro links
  induction links with
  | nil => intro l h; simp [paging_commands] at h; simp [h.symm]
  | cons li rest ih =>
    intro l h
    obtain ⟨el, u⟩ := li
    rw [paging_commands] at h
    obtain ⟨head, hh, h2⟩ := except_bind_eq_ok h
    obtain ⟨tail, ht, h3⟩ := except_bind_eq_ok h2
    cases head with
    | none =>
      simp only [except_pure, Except.ok.injEq] at h3
      subst h3
      simp only [List.filterMap_cons, hh]
      exact ih tail ht
    | some c =>
      simp only [except_pure, Except.ok.injEq] at h3
      subst h3
      simp only [List.filterMap_cons, hh]
      rw [ih tail ht]

/-- A successful request-gated child loop is the in-order selection of the
per-link child commands. -/
theorem link_child_commands_eq_filterMap (child : StructureNode)
    (ui : ResponseUrlInfo) (k : Nat) :
    ∀ (links : List (LinkEl × String)) (l : List UrlCommand),
      link_child_commands child ui k links = .ok l →
      l = links.filterMap (fun li =>
            match link_child_command child ui k li.1 li.2 with
            | .ok (some c) => some c
            | _ => none) := by
  intro links
  induction links with
  | nil => intro l h; simp [link_child_commands] at h; simp [h.symm]
  | cons li rest ih =>
    intro l h
    obtain ⟨el, u⟩ := li
    rw [link_child_commands] at h
    obtain ⟨head, hh, h2⟩ := except_bind_eq_ok h
    obtain ⟨tail, ht, h3⟩ := except_bind_eq_ok h2
    cases head with
    | none =>
      simp only [except_pure, Except.ok.injEq] at h3
      subst h3
      simp only [List.filterMap_cons, hh]
      exact ih tail ht
    | some c =>
      simp only [except_pure, Except.ok.injEq] at h3
      subst h3
      simp only [List.filterMap_cons, hh]
      rw [ih tail ht]

/-- Claim C1: a successful non-leaf run returns the paging commands first,
in link-discovery order, then one block per child in declaration order,
each request-gated child's block following link-discovery order. -/
theorem command_ordering (node : StructureNode) (ui : ResponseUrlInfo)
    (cmds : List UrlCommand) (hleaf : node.is_leaf = false)
    (h : get_url_commands_impl node ui = .ok cmds) :
    ∃ (pcmds : List UrlCommand) (css : List (List UrlCommand)),
      cmds = pcmds ++ css.flatten ∧
      css.length = node.children.length ∧
      (node.paging = true →
        pcmds = (get_links ui.res ui.content_node).filterMap (fun li =>
          match paging_command_for_link node ui li.1 li.2 with
          | .ok (some c) => some c
          | _ => none)) ∧
      (node.paging = false → pcmds = []) ∧
      (∀ k child, node.children[k]? = some child →
        child.needs_no_request = false → node.is_root = false →
        ∃ l, css[k]? = some l ∧
          l = (get_links ui.res ui.content_node).filterMap (fun li =>
            match link_child_command child ui k li.1 li.2 with
            | .ok (some c) => some c
            | _ => none)) := by
  obtain ⟨pcmds, ccmds, found, hp1, hp0, hproc, hcat⟩ :=
    impl_nonleaf_decomp node ui cmds hleaf h
  obtain ⟨css, hlen, hflat, hper⟩ :=
    process_children_spec node.is_root ui (get_links ui.res ui.content_node)
      node.children 0 ccmds found hproc
  refine ⟨pcmds, css, by rw [hcat, hflat], hlen,
    fun hpg => paging_commands_eq_filterMap node ui _ pcmds (hp1 hpg), hp0, ?_⟩
  intro k child hk hnnr hroot
  obtain ⟨l, hl, hlcc⟩ := hper k child hk hnnr hroot
  rw [Nat.zero_add] at hlcc
  exact ⟨l, hl, link_child_commands_eq_filterMap child ui k _ l hlcc⟩

/-- Concrete evaluation of the generator on the paging fixture: the paging
request comes first, then the leaf child's download. -/
theorem ex_paging_eval : get_url_commands_impl ex_paging_node ex_rui
    = .ok [ex_paging_request_cmd, ex_child_download_cmd] := by
  simp [get_url_commands_impl, process_children, process_child, paging_commands,
    paging_command_for_link, link_child_commands, link_child_command,
    get_links, get_links_aux, content_node_link_els, link_url_attr,
    Sel.xpath_href_src, ex_paging_node, ex_rui, ex_res, ex_sel, ex_url_info,
    ex_link_a, ex_link_next, ex_leaf_child, ex_matcher_content, ex_matcher_page,
    StructureNode.is_leaf, StructureNode.children, StructureNode.paging,
    StructureNode.is_root, StructureNode.needs_no_request,
    StructureNode.url_matcher, StructureNode.match_url,
    StructureNode.has_file_path_component, StructureNode.file_path_extractor,
    StructureNode.update_url_info_before_request, StructureNode.convert_url,
    StructureNode.url_converter, StructureNode.needs_response_for_file_path,
    StructureNode.needs_response_for_file_content,
    StructureNode.can_get_file_content_before_request,
    StructureNode.file_content_extractor, ResponseUrlInfo.next,
    UrlInfo.mk_default, synthesized_link_el, ex_paging_request_cmd,
    ex_paging_next_url_info, ex_child_download_cmd]

/-- Witness for claim C1 at the paging fixture. -/
theorem command_ordering_witness :
    ex_paging_node.is_leaf = false ∧
    get_url_commands_impl ex_paging_node ex_rui
      = .ok [ex_paging_request_cmd, ex_child_download_cmd] ∧
    (∃ (pcmds : List UrlCommand) (css : List (List UrlCommand)),
      [ex_paging_request_cmd, ex_child_download_cmd] = pcmds ++ css.flatten ∧
      css.length = ex_paging_node.children.length ∧
      (ex_paging_node.paging = true →
        pcmds = (get_links ex_rui.res ex_rui.content_node).filterMap (fun li =>
          match paging_command_for_link ex_paging_node ex_rui li.1 li.2 with
          | .ok (some c) => some c
          | _ => none)) ∧
      (ex_paging_node.paging = false → pcmds = []) ∧
      (∀ k child, ex_paging_node.children[k]? = some child →
        child.needs_no_request = false → ex_paging_node.is_root = false →
        ∃ l, css[k]? = some l ∧
          l = (get_links ex_rui.res ex_rui.content_node).filterMap (fun li =>
            match link_child_command child ex_rui k li.1 li.2 with
            | .ok (some c) => some c
            | _ => none))) :=
  ⟨rfl, ex_paging_eval,
   command_ordering ex_paging_node ex_rui
     [ex_paging_request_cmd, ex_child_download_cmd] rfl ex_paging_eval⟩

end MediaScrapy

namespace MediaScrapy

/-- A successful per-link paging command is always a `RequestUrlCommand`
for the current page URL. -/
theorem paging_command_for_link_shape (node : StructureNode)
    (ui : ResponseUrlInfo) (el : LinkEl) (u : String) (c : UrlCommand)
    (h : paging_command_for_link node ui el u = .ok (some c)) :
    ∃ ui2, c = .request ui.url ui2 := by
  by_cases hm : (node.match_url u).1 = true
  · by_cases hfp : node.has_file_path_component = true
    · simp only [paging_command_for_link, hm, if_true, hfp] at h
      obtain ⟨nd, hd, h2⟩ := except_bind_eq_ok h
      obtain ⟨ui2, hu, h3⟩ := except_bind_eq_ok h2
      simp only [except_pure, Except.ok.injEq, Option.some.injEq] at h3
      exact ⟨ui2, h3.symm⟩
    · simp only [paging_command_for_link, hm, if_true, hfp, Bool.false_eq_true,
        if_false, except_pure, except_bind_ok] at h
      obtain ⟨ui2, hu, h3⟩ := except_bind_eq_ok h
      simp only [except_pure, Except.ok.injEq, Option.some.injEq] at h3
      exact ⟨ui2, h3.symm⟩
  · simp [paging_command_for_link, hm] at h

/-- Every command of a successful paging loop is a `RequestUrlCommand`. -/
theorem paging_commands_all_requests (node : StructureNode)
    (ui : ResponseUrlInfo) (links : List (LinkEl × String))
    (l : List UrlCommand) (h : paging_commands node ui links = .ok l) :
    ∀ c ∈ l, ∃ u ui2, c = .request u ui2 := by
  intro c hc
  rw [paging_commands_eq_filterMap node ui links l h] at hc
  obtain ⟨li, hmem, hpick⟩ := List.mem_filterMap.mp hc
  cases hp : paging_command_for_link node ui li.1 li.2 with
  | error e => rw [hp] at hpick; cases hpick
  | ok o =>
    cases o with
    | none => rw [hp] at hpick; cases hpick
    | some c2 =>
      rw [hp] at hpick
      simp only [Option.some.injEq] at hpick
      subst hpick
      obtain ⟨ui2, hshape⟩ := paging_command_for_link_shape node ui li.1 li.2 c2 hp
      exact ⟨ui.url, ui2, hshape⟩

/-- Claim C7 counterexample: on a page whose paging node matches its own
next-page link and whose leaf child matches a content link, the generator
emits the re-entering `RequestUrlCommand` before the child's
`DownloadUrlCommand`, so the downloads do not precede the request. -/
theorem paging_downloads_first_counterexample :
    get_url_commands_impl ex_paging_node ex_rui
      = .ok [ex_paging_request_cmd, ex_child_download_cmd] ∧
    ex_paging_request_cmd = .request "http://x/" ex_paging_next_url_info ∧
    ex_child_download_cmd = .download "http://x/c/a" "" ∧
    ¬ downloads_precede_requests [ex_paging_request_cmd, ex_child_download_cmd] := by
  refine ⟨ex_paging_eval, rfl, rfl, ?_⟩
  intro hdp
  have h10 := hdp 1 0 "http://x/c/a" "" "http://x/" ex_paging_next_url_info
    (by simp [ex_child_download_cmd]) (by simp [ex_paging_request_cmd])
  omega

/-- Claim C7 (amended): for a paging node whose matcher also matches its
own next-page links, a successful run yields the re-entering
`RequestUrlCommand`s (the whole paging block) before all of the page's
child-derived commands, download commands included. -/
theorem paging_requests_precede_child_commands (node : StructureNode)
    (ui : ResponseUrlInfo) (cmds : List UrlCommand)
    (hleaf : node.is_leaf = false) (hpaging : node.paging = true)
    (h : get_url_commands_impl node ui = .ok cmds) :
    ∃ pcmds ccmds found,
      paging_commands node ui (get_links ui.res ui.content_node) = .ok pcmds ∧
      process_children node.is_root ui (get_links ui.res ui.content_node) 0
        node.children = .ok (ccmds, found) ∧
      cmds = pcmds ++ ccmds ∧
      (∀ c ∈ pcmds, ∃ u ui2, c = .request u ui2) := by
  obtain ⟨pcmds, ccmds, found, hp1, hp0, hproc, hcat⟩ :=
    impl_nonleaf_decomp node ui cmds hleaf h
  exact ⟨pcmds, ccmds, found, hp1 hpaging, hproc, hcat,
    paging_commands_all_requests node ui _ pcmds (hp1 hpaging)⟩

/-- Witness for the amended claim C7 at the paging fixture. -/
theorem paging_requests_precede_child_commands_witness :
    ex_paging_node.is_leaf = false ∧ ex_paging_node.paging = true ∧
    get_url_commands_impl ex_paging_node ex_rui
      = .ok [ex_paging_request_cmd, ex_child_download_cmd] ∧
    (∃ pcmds ccmds found,
      paging_commands ex_paging_node ex_rui
        (get_links ex_rui.res ex_rui.content_node) = .ok pcmds ∧
      process_children ex_paging_node.is_root ex_rui
        (get_links ex_rui.res ex_rui.content_node) 0 ex_paging_node.children
        = .ok (ccmds, found) ∧
      [ex_paging_request_cmd, ex_child_download_cmd] = pcmds ++ ccmds ∧
      (∀ c ∈ pcmds, ∃ u ui2, c = .request u ui2)) :=
  ⟨rfl, rfl, ex_paging_eval,
   paging_requests_precede_child_commands ex_paging_node ex_rui
     [ex_paging_request_cmd, ex_child_download_cmd] rfl rfl ex_paging_eval⟩

end MediaScrapy

namespace MediaScrapy

/-- Inversion of an `Except` bind that ended in an error. -/
theorem except_bind_eq_error {α β : Type} {x : Except Err α}
    {f : α → Except Err β} {e : Err} (h : (x >>= f) = .error e) :
    x = .error e ∨ ∃ a, x = .ok a ∧ f a = .error e := by
  cases x with
  | error e2 =>
    simp only [except_bind_error, Except.error.injEq] at h
    exact Or.inl (by rw [h])
  | ok a => exact Or.inr ⟨a, rfl, h⟩

/-- `convert_url` never raises the unmatched-start-URL error. -/
theorem convert_url_err_ne (node : StructureNode) (ui : UrlInfo) (e : Err)
    (h : node.convert_url ui = .error e) : e ≠ .noMatcherForStartUrl := by
  intro he
  subst he
  unfold StructureNode.convert_url at h
  cases hcv : node.url_converter with
  | none => simp [hcv] at h
  | some c =>
    simp only [hcv] at h
    cases hx : c.fn ui with
    | none => simp [hx] at h
    | some u => simp [hx] at h

/-- `update_url_info_before_request` never raises the unmatched-start-URL error. -/
theorem update_err_ne (node : StructureNode) (ui : UrlInfo) (e : Err)
    (h : node.update_url_info_before_request ui = .error e) :
    e ≠ .noMatcherForStartUrl := by
  intro he
  subst he
  unfold StructureNode.update_url_info_before_request at h
  cases hf : node.file_path_extractor with
  | none =>
    simp only [hf] at h
    cases hcv : node.convert_url ui with
    | error e2 =>
      simp only [hcv, except_pure, except_bind_ok, except_bind_error,
        Except.error.injEq] at h
      subst h
      exact convert_url_err_ne node ui _ hcv rfl
    | ok u => simp [hcv] at h
  | some ex =>
    simp only [hf] at h
    by_cases hn : ex.needs_response = true
    · simp only [hn, if_true] at h
      cases hcv : node.convert_url ui with
      | error e2 =>
        simp only [hcv, except_pure, except_bind_ok, except_bind_error,
          Except.error.injEq] at h
        subst h
        exact convert_url_err_ne node ui _ hcv rfl
      | ok u => simp [hcv] at h
    · simp only [hn, Bool.false_eq_true, if_false] at h
      cases hx : ex.fn ui.toCtx with
      | none => simp [hx] at h
      | some c =>
        simp only [hx] at h
        cases hcv : node.convert_url (ui.add_file_path_component c) with
        | error e2 =>
          simp only [hcv, except_pure, except_bind_ok, except_bind_error,
            Except.error.injEq] at h
          subst h
          exact convert_url_err_ne node _ _ hcv rfl
        | ok u => simp [hcv] at h

/-- `create_response_url_info` never raises the unmatched-start-URL error. -/
theorem create_response_url_info_err_ne (node : StructureNode) (ui : UrlInfo)
    (res : Response) (e : Err)
    (h : node.create_response_url_info ui res = .error e) :
    e ≠ .noMatcherForStartUrl := by
  intro he
  subst he
  unfold StructureNode.create_response_url_info at h
  cases hce : node.content_node_extractor with
  | none =>
    simp only [hce, except_pure, except_bind_ok] at h
    cases hf : node.file_path_extractor with
    | none => simp [hf] at h
    | some ex =>
      simp only [hf] at h
      by_cases hn : ex.needs_response = true
      · simp only [hn, if_true] at h
        cases hx : ex.fn
            (ResponseUrlInfo.toCtx
              { toUrlInfo := ui, res := res, content_node := [res.selector] }) with
        | none => simp [hx] at h
        | some c => simp [hx] at h
      · simp [hn] at h
  | some ce =>
    simp only [hce] at h
    cases hcx : ce.fn { toUrlInfo := ui, res := res, content_node := [res.selector] } with
    | none => simp [hcx] at h
    | some cn =>
      simp only [hcx, except_pure, except_bind_ok] at h
      cases hf : node.file_path_extractor with
      | none => simp [hf] at h
      | some ex =>
        simp only [hf] at h
        by_cases hn : ex.needs_response = true
        · simp only [hn, if_true] at h
          cases hx : ex.fn
              (ResponseUrlInfo.toCtx
                { toUrlInfo := ui, res := res, content_node := cn }) with
          | none => simp [hx] at h
          | some c => simp [hx] at h
        · simp [hn] at h

/-- `assert_content` never raises the unmatched-start-URL error. -/
theorem assert_content_err_ne (node : StructureNode) (rui : ResponseUrlInfo)
    (e : Err) (h : node.assert_content rui = .error e) :
    e ≠ .noMatcherForStartUrl := by
  intro he
  subst he
  unfold StructureNode.assert_content at h
  cases ha : node.assertion_matcher with
  | none => simp [ha] at h
  | some a =>
    simp only [ha] at h
    by_cases hb : a.fn rui = true
    · simp [hb] at h
    · simp [hb] at h

/-- `extract_file_content_impl` never raises the unmatched-start-URL error. -/
theorem extract_file_content_impl_err_ne (node : StructureNode) (ctx : Ctx)
    (e : Err) (h : node.extract_file_content_impl ctx = .error e) :
    e ≠ .noMatcherForStartUrl := by
  intro he
  subst he
  unfold StructureNode.extract_file_content_impl at h
  cases hf : node.file_content_extractor with
  | none => simp [hf] at h
  | some ex =>
    simp only [hf] at h
    cases hx : ex.fn ctx with
    | none => simp [hx] at h
    | some v => cases v <;> simp_all

/-- `extract_file_content` never raises the unmatched-start-URL error. -/
theorem extract_file_content_err_ne (node : StructureNode)
    (rui : ResponseUrlInfo) (e : Err)
    (h : node.extract_file_content rui = .error e) :
    e ≠ .noMatcherForStartUrl := by
  unfold StructureNode.extract_file_content at h
  cases hf : node.file_content_extractor with
  | none => simp [hf] at h
  | some ex =>
    rw [hf] at h
    exact extract_file_content_impl_err_ne node rui.toCtx e h

/-- `extract_file_content_without_response` never raises the unmatched-start-URL error. -/
theorem extract_without_response_err_ne (node : StructureNode) (ui : UrlInfo)
    (e : Err) (h : node.extract_file_content_without_response ui = .error e) :
    e ≠ .noMatcherForStartUrl := by
  unfold StructureNode.extract_file_content_without_response at h
  cases hf : node.file_content_extractor with
  | none =>
    rw [hf] at h
    intro he
    subst he
    simp at h
  | some ex =>
    rw [hf] at h
    exact extract_file_content_impl_err_ne node ui.toCtx e h

/-- `drop_last_file_path_component` never raises the unmatched-start-URL error. -/
theorem drop_err_ne (ui : UrlInfo) (e : Err)
    (h : ui.drop_last_file_path_component = .error e) :
    e ≠ .noMatcherForStartUrl := by
  intro he
  subst he
  unfold UrlInfo.drop_last_file_path_component at h
  by_cases h0 : ui.file_path.length = 0
  · simp [h0] at h
  · simp only [h0, if_false] at h
    by_cases h1 : dirname ui.file_path = ui.file_path
    · simp [h1] at h
    · simp [h1] at h

/-- The paging branch never raises the unmatched-start-URL error. -/
theorem paging_command_for_link_err_ne (node : StructureNode)
    (ui : ResponseUrlInfo) (el : LinkEl) (u : String) (e : Err)
    (h : paging_command_for_link node ui el u = .error e) :
    e ≠ .noMatcherForStartUrl := by
  intro he
  subst he
  by_cases hm : (node.match_url u).1 = true
  · by_cases hfp : node.has_file_path_component = true
    · simp only [paging_command_for_link, hm, if_true, hfp] at h
      rcases except_bind_eq_error h with hd | ⟨nd, hd, h2⟩
      · exact drop_err_ne _ _ hd rfl
      · rcases except_bind_eq_error h2 with hu | ⟨ui2, hu, h3⟩
        · exact update_err_ne _ _ _ hu rfl
        · simp at h3
    · simp only [paging_command_for_link, hm, if_true, hfp, Bool.false_eq_true,
        if_false, except_pure, except_bind_ok] at h
      rcases except_bind_eq_error h with hu | ⟨ui2, hu, h3⟩
      · exact update_err_ne _ _ _ hu rfl
      · simp at h3
  · simp [paging_command_for_link, hm] at h

/-- The paging loop never raises the unmatched-start-URL error. -/
theorem paging_commands_err_ne (node : StructureNode) (ui : ResponseUrlInfo) :
    ∀ (links : List (LinkEl × String)) (e : Err),
      paging_commands node ui links = .error e →
      e ≠ .noMatcherForStartUrl := by
  intro links
  induction links with
  | nil => intro e h; simp [paging_commands] at h
  | cons li rest ih =>
    intro e h
    obtain ⟨el, u⟩ := li
    rw [paging_commands] at h
    rcases except_bind_eq_error h with hh | ⟨head, hh, h2⟩
    · exact paging_command_for_link_err_ne node ui el u e hh
    · rcases except_bind_eq_error h2 with ht | ⟨tail, ht, h3⟩
      · exact ih e ht
      · cases head <;> simp at h3

/-- The request-gated branch never raises the unmatched-start-URL error. -/
theorem link_child_command_err_ne (child : StructureNode)
    (ui : ResponseUrlInfo) (k : Nat) (el : LinkEl) (u : String) (e : Err)
    (h : link_child_command child ui k el u = .error e) :
    e ≠ .noMatcherForStartUrl := by
  intro he
  subst he
  by_cases hm : (child.match_url u).1 = true
  · simp only [link_child_command, hm, if_true] at h
    rcases except_bind_eq_error h with hu | ⟨next, hu, h2⟩
    · exact update_err_ne _ _ _ hu rfl
    · by_cases hb : (child.is_leaf && !(child.needs_response_for_file_path ||
          child.needs_response_for_file_content)) = true
      · simp only [hb, if_true] at h2
        by_cases hcg : child.can_get_file_content_before_request = true
        · simp only [hcg, if_true] at h2
          rcases except_bind_eq_error h2 with hx | ⟨fc, hx, h3⟩
          · exact extract_without_response_err_ne _ _ _ hx rfl
          · simp at h3
        · rw [if_neg hcg] at h2
          simp at h2
      · rw [if_neg hb] at h2
        simp at h2
  · simp [link_child_command, hm] at h

/-- The request-gated loop never raises the unmatched-start-URL error. -/
theorem link_child_commands_err_ne (child : StructureNode)
    (ui : ResponseUrlInfo) (k : Nat) :
    ∀ (links : List (LinkEl × String)) (e : Err),
      link_child_commands child ui k links = .error e →
      e ≠ .noMatcherForStartUrl := by
  intro links
  induction links with
  | nil => intro e h; simp [link_child_commands] at h
  | cons li rest ih =>
    intro e h
    obtain ⟨el, u⟩ := li
    rw [link_child_commands] at h
    rcases except_bind_eq_error h with hh | ⟨head, hh, h2⟩
    · exact link_child_command_err_ne child ui k el u e hh
    · rcases except_bind_eq_error h2 with ht | ⟨tail, ht, h3⟩
      · exact ih e ht
      · cases head <;> simp at h3

/-- Below a root-free subtree the generator never raises the
unmatched-start-URL error, at any level of the walk (strong induction on
the termination measure). -/
theorem no_noMatcher_main : ∀ n : Nat,
    (∀ (node : StructureNode) (ui : ResponseUrlInfo), 2 * sizeOf node ≤ n →
      node_no_root node = true →
      get_url_commands_impl node ui ≠ .error .noMatcherForStartUrl) ∧
    (∀ (pr : Bool) (ui : ResponseUrlInfo) (links : List (LinkEl × String))
        (i : Nat) (child : StructureNode), 2 * sizeOf child + 1 ≤ n →
      node_no_root child = true →
      process_child pr ui links i child ≠ .error .noMatcherForStartUrl) ∧
    (∀ (pr : Bool) (ui : ResponseUrlInfo) (links : List (LinkEl × String))
        (i : Nat) (cs : List StructureNode), 2 * sizeOf cs ≤ n →
      forest_no_root cs = true →
      process_children pr ui links i cs ≠ .error .noMatcherForStartUrl) := by
  intro n
  induction n using Nat.strong_induction_on with
  | _ n ih =>
    refine ⟨?_, ?_, ?_⟩
    · intro node ui hsz hnr h
      have hnr2 := hnr
      rw [node_no_root] at hnr2
      simp only [Bool.and_eq_true, Bool.not_eq_true'] at hnr2
      rw [get_url_commands_impl] at h
      by_cases hleaf : node.is_leaf = true
      · simp only [hleaf, if_true] at h
        rcases except_bind_eq_error h with hex | ⟨fc, hex, h2⟩
        · exact extract_file_content_err_ne node ui _ hex rfl
        · simp at h2
      · rw [if_neg hleaf] at h
        by_cases hpg : node.paging = true
        · simp only [hpg, if_true] at h
          rcases except_bind_eq_error h with hp | ⟨pcmds, hp, h2⟩
          · exact paging_commands_err_ne node ui _ _ hp rfl
          · rcases except_bind_eq_error h2 with hpc | ⟨cf, hpc, h3⟩
            · have hm : 2 * sizeOf node.children < n := by
                have := StructureNode.sizeOf_children_lt node
                omega
              exact (ih _ hm).2.2 node.is_root ui _ 0 node.children
                (le_refl _) hnr2.2 hpc
            · rw [hnr2.1] at h3
              simp at h3
        · simp only [hpg, Bool.false_eq_true, if_false, except_pure,
            except_bind_ok] at h
          rcases except_bind_eq_error h with hpc | ⟨cf, hpc, h3⟩
          · have hm : 2 * sizeOf node.children < n := by
              have := StructureNode.sizeOf_children_lt node
              omega
            exact (ih _ hm).2.2 node.is_root ui _ 0 node.children
              (le_refl _) hnr2.2 hpc
          · rw [hnr2.1] at h3
            simp at h3
    · intro pr ui links i child hsz hnr h
      rw [process_child] at h
      by_cases hgate : (child.needs_no_request || pr) = true
      · simp only [hgate, if_true] at h
        by_cases hpr : pr = true
        · simp only [hpr, if_true] at h
          by_cases hm : (child.match_url (ui.forward i).url).1 = true
          · simp only [hm, if_true] at h
            rcases except_bind_eq_error h with h1 | ⟨next2, h1, h2⟩
            · exact update_err_ne _ _ _ h1 rfl
            · rcases except_bind_eq_error h2 with h2e | ⟨rui2, h2e, h3⟩
              · exact create_response_url_info_err_ne _ _ _ _ h2e rfl
              · rcases except_bind_eq_error h3 with h3e | ⟨u2, h3e, h4⟩
                · exact assert_content_err_ne _ _ _ h3e rfl
                · rcases except_bind_eq_error h4 with h4e | ⟨sub, h4e, h5⟩
                  · exact (ih (2 * sizeOf child) (by omega)).1 child rui2
                      (le_refl _) hnr h4e
                  · simp at h5
          · simp [hm] at h
        · simp only [hpr, Bool.false_eq_true, if_false] at h
          rcases except_bind_eq_error h with h1 | ⟨next2, h1, h2⟩
          · exact update_err_ne _ _ _ h1 rfl
          · rcases except_bind_eq_error h2 with h2e | ⟨rui2, h2e, h3⟩
            · exact create_response_url_info_err_ne _ _ _ _ h2e rfl
            · rcases except_bind_eq_error h3 with h3e | ⟨u2, h3e, h4⟩
              · exact assert_content_err_ne _ _ _ h3e rfl
              · rcases except_bind_eq_error h4 with h4e | ⟨sub, h4e, h5⟩
                · exact (ih (2 * sizeOf child) (by omega)).1 child rui2
                    (le_refl _) hnr h4e
                · simp at h5
      · rw [if_neg hgate] at h
        rcases except_bind_eq_error h with h1 | ⟨cmds, h1, h2⟩
        · exact link_child_commands_err_ne child ui i _ _ h1 rfl
        · simp at h2
    · intro pr ui links i cs hsz hfr h
      cases cs with
      | nil => rw [process_children] at h; simp at h
      | cons child rest =>
        rw [process_children] at h
        rw [forest_no_root] at hfr
        simp only [Bool.and_eq_true] at hfr
        simp only [List.cons.sizeOf_spec] at hsz
        rcases except_bind_eq_error h with h1 | ⟨head, h1, h2⟩
        · exact (ih (2 * sizeOf child + 1) (by omega)).2.1 pr ui links i child
            (le_refl _) hfr.1 h1
        · rcases except_bind_eq_error h2 with h2e | ⟨tail, h2e, h3⟩
          · exact (ih (2 * sizeOf rest) (by omega)).2.2 pr ui links (i + 1) rest
              (le_refl _) hfr.2 h2e
          · simp at h3

/-- At the root, a child whose matcher accepts the current URL forces the
forwardable flag of the child loop. -/
theorem process_children_found (ui : ResponseUrlInfo)
    (links : List (LinkEl × String)) :
    ∀ (cs : List StructureNode) (i : Nat) (cmds : List UrlCommand)
      (found : Bool) (k : Nat) (child : StructureNode),
      process_children true ui links i cs = .ok (cmds, found) →
      cs[k]? = some child → (child.match_url ui.url).1 = true →
      found = true := by
  intro cs
  induction cs with
  | nil =>
    intro i cmds found k child h hk
    simp at hk
  | cons c0 rest ih =>
    intro i cmds found k child h hk hm
    rw [process_children] at h
    obtain ⟨head, hh, h2⟩ := except_bind_eq_ok h
    obtain ⟨tail, ht, h3⟩ := except_bind_eq_ok h2
    simp only [except_pure, Except.ok.injEq, Prod.mk.injEq] at h3
    cases k with
    | zero =>
      simp only [List.getElem?_cons_zero, Option.some.injEq] at hk
      subst hk
      rw [process_child] at hh
      simp only [Bool.or_true, if_true] at hh
      have hfwd : (ui.forward i).url = ui.url := rfl
      rw [hfwd, hm] at hh
      simp only [if_true] at hh
      obtain ⟨next2, h1, hh2⟩ := except_bind_eq_ok hh
      obtain ⟨rui2, h2e, hh3⟩ := except_bind_eq_ok hh2
      obtain ⟨u2, h3e, hh4⟩ := except_bind_eq_ok hh3
      obtain ⟨sub, h4e, hh5⟩ := except_bind_eq_ok hh4
      simp only [except_pure, Except.ok.injEq] at hh5
      rw [← h3.2, ← hh5]
      simp
    | succ k2 =>
      simp only [List.getElem?_cons_succ] at hk
      have := ih (i + 1) tail.1 tail.2 k2 child (by rw [ht]) hk hm
      rw [← h3.2, this]
      simp

/-- At the root, a child whose matcher rejects the current URL is skipped:
it contributes no commands and leaves the forwardable flag cleared. -/
theorem process_child_root_unmatched (ui : ResponseUrlInfo)
    (links : List (LinkEl × String)) (i : Nat) (child : StructureNode)
    (hm : (child.match_url ui.url).1 = false) :
    process_child true ui links i child = .ok ([], false) := by
  rw [process_child]
  simp only [Bool.or_true, if_true]
  have hfwd : (ui.forward i).url = ui.url := rfl
  rw [hfwd, hm]
  simp

/-- At the root, when no child matcher accepts the current URL the child
loop returns no commands and a cleared forwardable flag. -/
theorem process_children_none_matched (ui : ResponseUrlInfo)
    (links : List (LinkEl × String)) :
    ∀ (cs : List StructureNode) (i : Nat),
      (∀ (k : Nat) (child : StructureNode), cs[k]? = some child →
        (child.match_url ui.url).1 = false) →
      process_children true ui links i cs = .ok ([], false) := by
  intro cs
  induction cs with
  | nil => intro i hall; rw [process_children]; rfl
  | cons c0 rest ih =>
    intro i hall
    rw [process_children]
    have hm : (c0.match_url ui.url).1 = false := hall 0 c0 (by simp)
    rw [process_child_root_unmatched ui links i c0 hm]
    have htail := ih (i + 1) (fun k child hk => hall (k + 1) child (by simpa using hk))
    rw [except_bind_ok]
    rw [htail]
    rfl

/-- Claim C6: at the root the generator raises the fatal unmatched-start-URL
error exactly when no root child's URL matcher accepts the current URL;
when some child matches, that error is never raised, and root children
whose matchers reject the URL contribute no commands (commands are
produced only through the matching children). -/
theorem root_no_matcher_error_iff (node : StructureNode) (ui : ResponseUrlInfo)
    (hroot : node.is_root = true) (hpaging : node.paging = false)
    (hne : node.children ≠ [])
    (hnr : forest_no_root node.children = true) :
    (get_url_commands_impl node ui = .error .noMatcherForStartUrl ↔
      ∀ (k : Nat) (child : StructureNode), node.children[k]? = some child →
        (child.match_url ui.url).1 = false) ∧
    (∀ (k : Nat) (child : StructureNode), node.children[k]? = some child →
      (child.match_url ui.url).1 = false →
      process_child true ui (get_links ui.res ui.content_node) k child
        = .ok ([], false)) := by
  refine ⟨?_, fun k child _ hm =>
    process_child_root_unmatched ui (get_links ui.res ui.content_node) k child hm⟩
  have hleaf : node.is_leaf = false := by
    cases hcs : node.children with
    | nil => exact absurd hcs hne
    | cons a l => simp [StructureNode.is_leaf, hcs]
  constructor
  · intro h
    by_contra hcon
    push_neg at hcon
    obtain ⟨k, child, hk, hm⟩ := hcon
    have hm2 : (child.match_url ui.url).1 = true := by
      cases hx : (child.match_url ui.url).1
      · exact absurd hx hm
      · rfl
    rw [get_url_commands_impl] at h
    rw [if_neg (by simp [hleaf])] at h
    simp only [hpaging, Bool.false_eq_true, if_false, except_pure,
      except_bind_ok] at h
    rcases except_bind_eq_error h with hpc | ⟨cf, hpc, h3⟩
    · rw [hroot] at hpc
      exact (no_noMatcher_main (2 * sizeOf node.children)).2.2 true ui _ 0
        node.children (le_refl _) hnr hpc
    · obtain ⟨cmds, found⟩ := cf
      rw [hroot] at hpc
      have hfound : found = true :=
        process_children_found ui _ node.children 0 cmds found k child hpc hk hm2
      rw [hroot, hfound] at h3
      simp at h3
  · intro hall
    rw [get_url_commands_impl]
    rw [if_neg (by simp [hleaf])]
    simp only [hpaging, Bool.false_eq_true, if_false, except_pure,
      except_bind_ok]
    have hproc := process_children_none_matched ui
      (get_links ui.res ui.content_node) node.children 0 hall
    rw [hroot, hproc]
    simp [hroot]

end MediaScrapy

namespace MediaScrapy

/-- Witness for claim C6 at the concrete root fixture, whose only child
matches nothing at the current URL. -/
theorem root_no_matcher_error_iff_witness :
    ex_root.is_root = true ∧ ex_root.paging = false ∧
    ex_root.children ≠ [] ∧ forest_no_root ex_root.children = true ∧
    ((get_url_commands_impl ex_root ex_rui = .error .noMatcherForStartUrl ↔
      ∀ (k : Nat) (child : StructureNode), ex_root.children[k]? = some child →
        (child.match_url ex_rui.url).1 = false) ∧
     (∀ (k : Nat) (child : StructureNode), ex_root.children[k]? = some child →
       (child.match_url ex_rui.url).1 = false →
       process_child true ex_rui (get_links ex_rui.res ex_rui.content_node) k
         child = .ok ([], false))) :=
  ⟨rfl, rfl, by simp [ex_root, StructureNode.children],
   by simp [forest_no_root, node_no_root, ex_root, StructureNode.children,
     StructureNode.is_root],
   root_no_matcher_error_iff ex_root ex_rui rfl rfl
     (by simp [ex_root, StructureNode.children])
     (by simp [forest_no_root, node_no_root, ex_root, StructureNode.children,
       StructureNode.is_root])⟩

end MediaScrapy

namespace MediaScrapy

/-- A tree accepted by `check` has file-content extractors only on leaves
(strong induction over the tree). -/
theorem check_inv_main : ∀ n : Nat,
    (∀ node : StructureNode, sizeOf node ≤ n → check_node node = .ok () →
      ∀ m, InTree m node → m.file_content_extractor.isSome = true →
        m.is_leaf = true) ∧
    (∀ cs : List StructureNode, sizeOf cs ≤ n → check_children cs = .ok () →
      ∀ c ∈ cs, ∀ m, InTree m c → m.file_content_extractor.isSome = true →
        m.is_leaf = true) := by
  intro n
  induction n using Nat.strong_induction_on with
  | _ n ih =>
    constructor
    · intro node hsz hok m hin hsome
      rw [check_node] at hok
      by_cases hcond : (!node.is_leaf && node.file_content_extractor.isSome) = true
      · simp [hcond] at hok
      · rw [if_neg hcond] at hok
        cases hin with
        | refl =>
          cases hl : node.is_leaf with
          | true => rfl
          | false => exact absurd (by simp [hl, hsome]) hcond
        | step hc hm =>
          have hlt : sizeOf node.children < n := by
            have := StructureNode.sizeOf_children_lt node
            omega
          exact (ih _ hlt).2 node.children (le_refl _) hok _ hc m hm hsome
    · intro cs hsz hok c hc m hin hsome
      cases cs with
      | nil => cases hc
      | cons c1 rest =>
        rw [check_children] at hok
        obtain ⟨u, h1, h2⟩ := except_bind_eq_ok hok
        simp only [List.cons.sizeOf_spec] at hsz
        rcases List.mem_cons.mp hc with heq | hmem
        · subst heq
          exact (ih (sizeOf c) (by omega)).1 c (le_refl _) h1 m hin hsome
        · exact (ih (sizeOf rest) (by omega)).2 rest (le_refl _) h2 c hmem m hin hsome

/-- `check` either succeeds or raises the content-on-non-leaf error. -/
theorem check_dichotomy : ∀ n : Nat,
    (∀ node : StructureNode, sizeOf node ≤ n →
      check_node node = .ok () ∨ check_node node = .error .fileContentNotInLeaf) ∧
    (∀ cs : List StructureNode, sizeOf cs ≤ n →
      check_children cs = .ok () ∨
        check_children cs = .error .fileContentNotInLeaf) := by
  intro n
  induction n using Nat.strong_induction_on with
  | _ n ih =>
    constructor
    · intro node hsz
      rw [check_node]
      by_cases hcond : (!node.is_leaf && node.file_content_extractor.isSome) = true
      · rw [if_pos hcond]
        exact Or.inr rfl
      · rw [if_neg hcond]
        have hlt : sizeOf node.children < n := by
          have := StructureNode.sizeOf_children_lt node
          omega
        exact (ih _ hlt).2 node.children (le_refl _)
    · intro cs hsz
      cases cs with
      | nil => exact Or.inl (by rw [check_children])
      | cons c1 rest =>
        rw [check_children]
        simp only [List.cons.sizeOf_spec] at hsz
        rcases (ih (sizeOf c1) (by omega)).1 c1 (le_refl _) with h1 | h1
        · rw [h1]
          simp only [except_bind_ok]
          exact (ih (sizeOf rest) (by omega)).2 rest (le_refl _)
        · rw [h1]
          exact Or.inr rfl

/-- A tree holding a non-leaf node with a file-content extractor is
rejected by `check` with the content-on-non-leaf error. -/
theorem check_node_error_of_violation (node m : StructureNode)
    (hin : InTree m node) (hsome : m.file_content_extractor.isSome = true)
    (hnl : m.is_leaf = false) :
    check_node node = .error .fileContentNotInLeaf := by
  rcases (check_dichotomy (sizeOf node)).1 node (le_refl _) with hok | herr
  · have := (check_inv_main (sizeOf node)).1 node (le_refl _) hok m hin hsome
    rw [this] at hnl
    cases hnl
  · exact herr

/-- Inversion of a successful parse: the chain parsed, the root is the
synthesized root node, and `check` accepted it. -/
theorem parse_structure_list_ok_inv (defs : List StructureDef)
    (root : StructureNode) (h : parse_structure_list defs = .ok root) :
    ∃ cs, parse_chain defs = .ok cs ∧
      root = .mk none none none none none none false true cs ∧
      check_node root = .ok () := by
  rw [parse_structure_list] at h
  obtain ⟨cs, hc, h2⟩ := except_bind_eq_ok h
  obtain ⟨u, hchk, h3⟩ := except_bind_eq_ok h2
  simp only [except_pure, Except.ok.injEq] at h3
  subst h3
  obtain ⟨⟩ := u
  exact ⟨cs, hc, rfl, hchk⟩

/-- A parse whose chain succeeds but whose `check` fails propagates the
check error. -/
theorem parse_structure_list_err_of_check (defs : List StructureDef)
    (cs : List StructureNode) (e : Err) (hc : parse_chain defs = .ok cs)
    (he : check_node (.mk none none none none none none false true cs)
      = .error e) :
    parse_structure_list defs = .error e := by
  rw [parse_structure_list, hc]
  simp only [except_bind_ok]
  rw [he]
  rfl

/-- Claim C8: parsing a structure definition in which a node carrying a
file-content extractor has children raises the configuration error, so in
every successfully parsed tree such nodes are leaves. -/
theorem file_content_only_on_leaves :
    (∀ (defs : List StructureDef) (root : StructureNode),
      parse_structure_list defs = .ok root →
      ∀ m, InTree m root → m.file_content_extractor.isSome = true →
        m.is_leaf = true) ∧
    (∀ (defs : List StructureDef) (cs : List StructureNode)
        (m c : StructureNode),
      parse_chain defs = .ok cs → c ∈ cs → InTree m c →
      m.file_content_extractor.isSome = true → m.is_leaf = false →
      parse_structure_list defs = .error .fileContentNotInLeaf) := by
  constructor
  · intro defs root h m hin hsome
    obtain ⟨cs, hc, hroot, hchk⟩ := parse_structure_list_ok_inv defs root h
    exact (check_inv_main (sizeOf root)).1 root (le_refl _) hchk m hin hsome
  · intro defs cs m c hc hmem hin hsome hnl
    have hin2 : InTree m (.mk none none none none none none false true cs) :=
      InTree.step (t := .mk none none none none none none false true cs)
        (by simpa [StructureNode.children] using hmem) hin
    exact parse_structure_list_err_of_check defs cs _ hc
      (check_node_error_of_violation _ m hin2 hsome hnl)

/-- Witness for claim C8 at the concrete violating definition list. -/
theorem file_content_only_on_leaves_witness :
    parse_chain ex_c8_defs = .ok [ex_c8_node] ∧
    ex_c8_node ∈ [ex_c8_node] ∧
    ex_c8_node.file_content_extractor.isSome = true ∧
    ex_c8_node.is_leaf = false ∧
    parse_structure_list ex_c8_defs = .error .fileContentNotInLeaf :=
  ⟨by simp [parse_chain, ex_c8_defs, ex_c8_node, ex_c8_child],
   List.mem_singleton.mpr rfl, rfl, rfl,
   file_content_only_on_leaves.2 ex_c8_defs [ex_c8_node] ex_c8_node ex_c8_node
     (by simp [parse_chain, ex_c8_defs, ex_c8_node, ex_c8_child])
     (List.mem_singleton.mpr rfl) (InTree.refl ex_c8_node) rfl rfl⟩


end MediaScrapy

namespace MediaScrapy

/-- Distribution of `forest_no_root` over concatenation. -/
theorem forest_no_root_append (a b : List StructureNode) :
    forest_no_root (a ++ b) = (forest_no_root a && forest_no_root b) := by
  induction a with
  | nil => simp [forest_no_root]
  | cons c rest ih =>
    rw [List.cons_append, forest_no_root, forest_no_root, ih, Bool.and_assoc]

/-- Every tree built by the parser marks only the synthesized root as
root: the children forests satisfy `forest_no_root`, so the hypothesis of
the root-error characterization holds for every parsed configuration. -/
theorem parse_no_root_main : ∀ n : Nat,
    (∀ (defs : List StructureDef) (cs : List StructureNode),
      2 * sizeOf defs ≤ n → parse_chain defs = .ok cs →
      forest_no_root cs = true) ∧
    (∀ (bs : List (List StructureDef)) (cs : List StructureNode),
      2 * sizeOf bs ≤ n → parse_branches bs = .ok cs →
      forest_no_root cs = true) := by
  intro n
  induction n using Nat.strong_induction_on with
  | _ n ih =>
    constructor
    · intro defs cs hsz h
      cases defs with
      | nil =>
        rw [parse_chain] at h
        simp only [Except.ok.injEq] at h
        rw [← h, forest_no_root]
      | cons d rest =>
        cases d with
        | strDef m =>
          rw [parse_chain] at h
          obtain ⟨cs2, h1, h2⟩ := except_bind_eq_ok h
          simp only [except_pure, Except.ok.injEq] at h2
          simp only [List.cons.sizeOf_spec, StructureDef.strDef.sizeOf_spec] at hsz
          have hrest := (ih (2 * sizeOf rest) (by omega)).1 rest cs2 (le_refl _) h1
          rw [← h2, forest_no_root, node_no_root]
          simp [StructureNode.is_root, StructureNode.children, hrest,
            forest_no_root]
        | dictDef u a c fc fp asrt pg =>
          rw [parse_chain] at h
          obtain ⟨cs2, h1, h2⟩ := except_bind_eq_ok h
          simp only [except_pure, Except.ok.injEq] at h2
          simp only [List.cons.sizeOf_spec, StructureDef.dictDef.sizeOf_spec] at hsz
          have hrest := (ih (2 * sizeOf rest) (by omega)).1 rest cs2 (le_refl _) h1
          rw [← h2, forest_no_root, node_no_root]
          simp [StructureNode.is_root, StructureNode.children, hrest,
            forest_no_root]
        | branches bs =>
          rw [parse_chain] at h
          obtain ⟨cs2, h1, h2⟩ := except_bind_eq_ok h
          simp only [List.cons.sizeOf_spec, StructureDef.branches.sizeOf_spec] at hsz
          have hbs := (ih (2 * sizeOf bs) (by omega)).2 bs cs2 (le_refl _) h1
          by_cases hrest : rest.isEmpty = true
          · simp only [hrest, if_true, except_pure, Except.ok.injEq] at h2
            rw [← h2]
            exact hbs
          · simp [hrest] at h2
    · intro bs cs hsz h
      cases bs with
      | nil =>
        rw [parse_branches] at h
        simp only [Except.ok.injEq] at h
        rw [← h, forest_no_root]
      | cons defs more =>
        rw [parse_branches] at h
        obtain ⟨sub_root, h1, h2⟩ := except_bind_eq_ok h
        obtain ⟨others, h3, h4⟩ := except_bind_eq_ok h2
        simp only [except_pure, Except.ok.injEq] at h4
        simp only [List.cons.sizeOf_spec] at hsz
        obtain ⟨cs2, hc, hroot, hchk⟩ := parse_structure_list_ok_inv defs sub_root h1
        have hsub := (ih (2 * sizeOf defs) (by omega)).1 defs cs2 (le_refl _) hc
        have hmore := (ih (2 * sizeOf more) (by omega)).2 more others (le_refl _) h3
        rw [← h4, forest_no_root_append]
        rw [hroot]
        simp [StructureNode.children, hsub, hmore]

end MediaScrapy
